import Mathlib

/-!
# doctl: command configuration and resolution framework

A shallow embedding of `commands/doit.go`, `commands/droplets.go`,
`commands/drive_action.go` and `do/drive.go`.  Go strings are `String`, Go slices are `List` (wrapped in
`Option` where the difference between a nil and an empty slice matters),
a Go `error` result is an `Option` of an error value, and package-level
mutable state (the viper store, a command's flag set) is passed explicitly.
-/

namespace Doctl

/-! ## Values, flags and flag sets (spf13/pflag as used by the commands) -/

/-- The values the commands store in flags and in the configuration. -/
inductive Value where
  | str (s : String)
  | int (i : Int)
  | bool (b : Bool)
  | strs (l : List String)
  deriving DecidableEq, Repr

/-- A `pflag.Flag`: the fields the commands read or write. -/
structure Flag where
  name : String
  usage : String
  defValue : Value
  value : Value
  changed : Bool
  annotations : List (String × List String) := []
  deriving DecidableEq, Repr

/-- A `pflag.FlagSet`: the declared flags, in declaration order. -/
abbrev FlagSet := List Flag

/-- `FlagSet.Lookup`: the flag of that name, `none` for Go's nil. -/
def FlagSet.Lookup (fs : FlagSet) (name : String) : Option Flag :=
  fs.find? (fun f => f.name == name)

/-- Declaring a flag (`FlagSet.String`, `.Int`, `.Bool`, `.StringSlice` all end in
`AddFlag`): the flag is appended unchanged-by-the-user with its default as value.
pflag panics when the name is already declared, which is `none` here. -/
def FlagSet.declare (fs : FlagSet) (name : String) (dflt : Value) (desc : String) :
    Option FlagSet :=
  match fs.Lookup name with
  | some _ => none
  | none => some (fs ++ [{ name := name, usage := desc, defValue := dflt, value := dflt,
                           changed := false }])

/-- `FlagSet.Set`: what parsing does for a flag supplied on the command line. -/
def FlagSet.Set (fs : FlagSet) (name : String) (v : Value) : FlagSet :=
  fs.map (fun f => if f.name == name then { f with value := v, changed := true } else f)

/-- `FlagSet.SetAnnotation`: record an annotation on the flag of that name; the
result says whether such a flag exists (pflag returns an error when it does not). -/
def FlagSet.SetAnnotation (fs : FlagSet) (name key : String) (vals : List String) :
    FlagSet × Bool :=
  (fs.map (fun f => if f.name == name
                    then { f with annotations := (key, vals) :: f.annotations } else f),
   (fs.Lookup name).isSome)

/-- Assignment to `c.Flag(name).Usage` through the pointer `Lookup` returns. -/
def FlagSet.setUsage (fs : FlagSet) (name : String) (u : String) : FlagSet :=
  fs.map (fun f => if f.name == name then { f with usage := u } else f)

/-! ## Commands (spf13/cobra as used by the commands) -/

/-- A command node: its `Use` line, its own flags, and its parent pointer
(absent for a command that has not been added to a parent). -/
inductive Command where
  | root (use : String) (flags : FlagSet)
  | child (use : String) (flags : FlagSet) (parent : Command)
  deriving DecidableEq, Repr

/-- The `Use` field of a command. -/
def Command.Use : Command → String
  | .root u _ => u
  | .child u _ _ => u

/-- `cmd.Flags()`. -/
def Command.Flags : Command → FlagSet
  | .root _ fs => fs
  | .child _ fs _ => fs

/-- `cmd.Parent()`, `none` for Go's nil. -/
def Command.Parent : Command → Option Command
  | .root _ _ => none
  | .child _ _ p => some p

/-- Replace the flag set of a command (the effect of mutating `cmd.Flags()`). -/
def Command.withFlags : Command → FlagSet → Command
  | .root u _, fs => .root u fs
  | .child u _ p, fs => .child u fs p

/-- `cmd.Name()`: the `Use` line up to its first space. -/
def Command.Name (c : Command) : String :=
  String.mk (c.Use.data.takeWhile (fun ch => ch != ' '))

/-- The names of a command and of its ancestors, from the command up to the root. -/
def Command.path : Command → List String
  | .root u fs => [(Command.root u fs).Name]
  | .child u fs p => (Command.child u fs p).Name :: p.path

/-! ## Namespace keys (`commands/doit.go`) -/

/-- The local `parentName` of `flagName` and `cmdNS`: the name of the parent, or
`doit.NSRoot` for a command without one.  The constant `doit.NSRoot` is declared
outside the files at hand and is a parameter. -/
def parentName (NSRoot : String) (cmd : Command) : String :=
  match cmd.Parent with
  | some p => p.Name
  | none => NSRoot

/-- `flagName`: `fmt.Sprintf("%s.%s.%s", parentName, cmd.Name(), name)`. -/
def flagName (NSRoot : String) (cmd : Command) (name : String) : String :=
  parentName NSRoot cmd ++ "." ++ cmd.Name ++ "." ++ name

/-- `cmdNS`: `fmt.Sprintf("%s.%s", parentName, cmd.Name())`. -/
def cmdNS (NSRoot : String) (cmd : Command) : String :=
  parentName NSRoot cmd ++ "." ++ cmd.Name

/-- `requiredKey`: `fmt.Sprintf("%s.required", key)`. -/
def requiredKey (key : String) : String :=
  key ++ ".required"

/-! ## The configuration store (spf13/viper as used by the commands)

viper is a third-party library; the store below keeps one table per source and
`Viper.Get` consults them in the order viper documents: a value written with
`Set`, a bound flag the user changed, a bound environment variable holding a
non-empty string, the configuration file, a default, and last the default of a
bound flag.  Keys are compared as written (viper folds case on every read and
write alike). -/

/-- The registry: every table viper keeps per key. -/
structure Viper where
  override : List (String × Value) := []
  pflags : List (String × String) := []
  env : List (String × String) := []
  config : List (String × Value) := []
  defaults : List (String × Value) := []
  envPrefix : String := ""
  deriving DecidableEq, Repr

/-- `viper.Set`. -/
def Viper.Set (v : Viper) (key : String) (x : Value) : Viper :=
  { v with override := (key, x) :: v.override }

/-- `viper.SetDefault`. -/
def Viper.SetDefault (v : Viper) (key : String) (x : Value) : Viper :=
  { v with defaults := (key, x) :: v.defaults }

/-- `viper.SetEnvPrefix`. -/
def Viper.SetEnvPrefix (v : Viper) (p : String) : Viper :=
  { v with envPrefix := p }

/-- `viper.BindEnv(key, envName)` with the variable name given explicitly. -/
def Viper.BindEnv (v : Viper) (key envName : String) : Viper :=
  { v with env := (key, envName) :: v.env }

/-- `viper.BindPFlag(key, flag)`: the store keeps the pointer to the flag, here the
flag's name inside the flag set it was looked up in; a nil flag is refused. -/
def Viper.BindPFlag (v : Viper) (key : String) (flag : Option Flag) : Viper :=
  match flag with
  | some f => { v with pflags := (key, f.name) :: v.pflags }
  | none => v

/-- `viper.ReadConfig`: the parsed file replaces the configuration table. -/
def Viper.ReadConfig (v : Viper) (entries : List (String × Value)) : Viper :=
  { v with config := entries }

/-- `viper.Get`, reading bound flags in the flag set `fs` as it stands at the time
of the call and environment variables in `environ`. -/
def Viper.Get (v : Viper) (fs : FlagSet) (environ : List (String × String))
    (key : String) : Option Value :=
  let flag := (v.pflags.lookup key).bind fs.Lookup
  match v.override.lookup key with
  | some x => some x
  | none =>
    match flag.filter (fun f => f.changed) with
    | some f => some f.value
    | none =>
      match ((v.env.lookup key).bind environ.lookup).filter (fun s => s != "") with
      | some s => some (.str s)
      | none =>
        match v.config.lookup key with
        | some x => some x
        | none =>
          match v.defaults.lookup key with
          | some x => some x
          | none => flag.map (fun f => f.defValue)

/-! ## Root configuration (`commands/doit.go`, `init` and `initializeConfig`) -/

/-- The persistent flags `init()` declares on `DoitCmd`. -/
def persistentFlags : FlagSet :=
  [ { name := "access-token", usage := "DigitalOcean API V2 Access Token",
      defValue := .str "", value := .str "", changed := false },
    { name := "output", usage := "output formt [text|json]",
      defValue := .str "text", value := .str "text", changed := false },
    { name := "verbose", usage := "verbose output",
      defValue := .bool false, value := .bool false, changed := false },
    { name := "trace", usage := "verbose output",
      defValue := .bool false, value := .bool false, changed := false } ]

/-- The persistent flags after a command line that supplies `--access-token` and
`--output` as given (`none`: not supplied). -/
def parsedFlags (token output : Option String) : FlagSet :=
  let fs := match token with
    | some t => persistentFlags.Set "access-token" (.str t)
    | none => persistentFlags
  match output with
  | some o => fs.Set "output" (.str o)
  | none => fs

/-- `loadDefaultSettings`. -/
def loadDefaultSettings (v : Viper) : Viper :=
  v.SetDefault "output" (.str "text")

/-- `LoadConfig`: `file` is what the configuration file parses to, `none` when it
cannot be found, opened or read; the error is the result and the store is left as
it was. -/
def LoadConfig (file : Option (List (String × Value))) (v : Viper) : Viper × Bool :=
  match file with
  | some entries => (v.ReadConfig entries, true)
  | none => (v, false)

/-- `initFlags`, with `fs` the persistent flags of `DoitCmd`. -/
def initFlags (fs : FlagSet) (v : Viper) : Viper :=
  let v := v.SetEnvPrefix "DIGITALOCEAN"
  let v := v.BindEnv "access-token" "DIGITALOCEAN_ACCESS_TOKEN"
  let v := v.BindPFlag "access-token" (fs.Lookup "access-token")
  v.BindPFlag "output" (fs.Lookup "output")

/-- The value a flag holds, as the variable `StringVarP` ties to it. -/
def flagVar (fs : FlagSet) (name : String) : Value :=
  match fs.Lookup name with
  | some f => f.value
  | none => .str ""

/-- `initializeConfig`, with `fs` the persistent flags of `DoitCmd` as they stand when
it runs and `file` the configuration file; the result of `LoadConfig` is dropped. -/
def initializeConfig (fs : FlagSet) (file : Option (List (String × Value))) (v : Viper) :
    Viper :=
  let v := loadDefaultSettings v
  let v := (LoadConfig file v).1
  let v := initFlags fs v
  let v := if (fs.Lookup "access-token").any (fun f => f.changed)
           then v.Set "access-token" (flagVar fs "access-token") else v
  if (fs.Lookup "output").any (fun f => f.changed)
  then v.Set "output" (flagVar fs "output") else v

/-- The environment variable `initFlags` binds to a root key, if any. -/
def rootEnvName (key : String) : Option String :=
  if key = "access-token" then some "DIGITALOCEAN_ACCESS_TOKEN" else none

/-- The compiled-in default of a root key: the default `init()` gives its flag. -/
def rootDefault (key : String) : Value :=
  if key = "output" then .str "text" else .str ""

/-- The value supplied on the command line for a root key. -/
def rootSupplied (token output : Option String) (key : String) : Option String :=
  if key = "access-token" then token else if key = "output" then output else none

/-! ## Flag registration (`commands/doit.go`) -/

/-- `cobra.BashCompOneRequiredFlag`, the annotation `MarkFlagRequired` writes. -/
def BashCompOneRequiredFlag : String := "cobra_annotation_bash_completion_one_required_flag"

/-- `c.MarkFlagRequired(name)`: annotates the flag of that name in `c.Flags()`; the
error for an unknown flag is the boolean, which `requiredOpt` drops. -/
def Command.MarkFlagRequired (c : Command) (name : String) : Command × Bool :=
  let r := c.Flags.SetAnnotation name BashCompOneRequiredFlag ["true"]
  (c.withFlags r.1, r.2)

/-- The type `flagOpt`: an option applied to `(command, flag name, key)`; it acts on
the command and on the configuration store, and is `none` when the Go code panics. -/
abbrev flagOpt := Command → String → String → Viper → Option (Command × Viper)

/-- `requiredOpt`.  `requiredColor` (a bold white `Sprintf` of fatih/color) is a
parameter.  `c.Flag(name)` is looked up in the command's own flags, where the `Add*Flag`
functions have just declared it; a flag that is absent is a nil dereference. -/
def requiredOpt (requiredColor : String → String) : flagOpt :=
  fun c name key v =>
    let c := (c.MarkFlagRequired key).1
    let key := requiredKey key
    let v := v.Set key (.bool true)
    match c.Flags.Lookup name with
    | none => none
    | some f =>
      let u := f.usage
      some (c.withFlags (c.Flags.setUsage name (u ++ " " ++ requiredColor "(required)")), v)

/-- The loop `for _, o := range opts { o(cmd, name, fn) }`. -/
def applyOpts (opts : List flagOpt) (name fn : String) :
    Command × Viper → Option (Command × Viper) :=
  fun s => opts.foldlM (fun s o => o s.1 name fn s.2) s

/-- `AddStringFlag`: declare, apply the options, then bind the key to the flag. -/
def AddStringFlag (NSRoot : String) (cmd : Command) (v : Viper) (name dflt desc : String)
    (opts : List flagOpt) : Option (Command × Viper) := do
  let fn := flagName NSRoot cmd name
  let fs ← cmd.Flags.declare name (.str dflt) desc
  let (cmd, v) ← applyOpts opts name fn (cmd.withFlags fs, v)
  pure (cmd, v.BindPFlag fn (cmd.Flags.Lookup name))

/-- `AddIntFlag`: declare, bind the key to the flag, then apply the options. -/
def AddIntFlag (NSRoot : String) (cmd : Command) (v : Viper) (name : String) (dflt : Int)
    (desc : String) (opts : List flagOpt) : Option (Command × Viper) := do
  let fn := flagName NSRoot cmd name
  let fs ← cmd.Flags.declare name (.int dflt) desc
  let cmd := cmd.withFlags fs
  let v := v.BindPFlag fn (cmd.Flags.Lookup name)
  applyOpts opts name fn (cmd, v)

/-- `AddBoolFlag`: declare, bind the key to the flag, then apply the options. -/
def AddBoolFlag (NSRoot : String) (cmd : Command) (v : Viper) (name : String) (dflt : Bool)
    (desc : String) (opts : List flagOpt) : Option (Command × Viper) := do
  let fn := flagName NSRoot cmd name
  let fs ← cmd.Flags.declare name (.bool dflt) desc
  let cmd := cmd.withFlags fs
  let v := v.BindPFlag fn (cmd.Flags.Lookup name)
  applyOpts opts name fn (cmd, v)

/-- `AddStringSliceFlag`: declare, bind the key to the flag, then apply the options. -/
def AddStringSliceFlag (NSRoot : String) (cmd : Command) (v : Viper) (name : String)
    (dflt : List String) (desc : String) (opts : List flagOpt) : Option (Command × Viper) := do
  let fn := flagName NSRoot cmd name
  let fs ← cmd.Flags.declare name (.strs dflt) desc
  let cmd := cmd.withFlags fs
  let v := v.BindPFlag fn (cmd.Flags.Lookup name)
  applyOpts opts name fn (cmd, v)

/-- The usage text of the flag called `name`, if the command has one. -/
def Command.usageOf (c : Command) (name : String) : Option String :=
  (c.Flags.Lookup name).map (fun f => f.usage)

/-- What "the flag `name` of `cmd` has been added and marked required" means for the
result of an `Add*Flag` call: the call returns, the store answers `true` under the
required key of the flag whatever the flags and the environment hold, the flag's usage
text is its description, a space and the rendered marker, and no other usage text moved. -/
def MarkedRequired (NSRoot : String) (requiredColor : String → String) (cmd : Command)
    (name desc : String) (r : Option (Command × Viper)) : Prop :=
  ∃ c' v', r = some (c', v') ∧
    (∀ fs environ, v'.Get fs environ (requiredKey (flagName NSRoot cmd name))
        = some (.bool true)) ∧
    requiredKey (flagName NSRoot cmd name) = flagName NSRoot cmd name ++ ".required" ∧
    c'.usageOf name = some (desc ++ " " ++ requiredColor "(required)") ∧
    ∀ other, other ≠ name → c'.usageOf other = cmd.usageOf other

/-! ## Errors, services and the command context (`commands/doit.go`, `do/`) -/

/-- A Go `error` value.  `MissingArgsErr ns` is what `doit.NewMissingArgsErr(ns)`
builds; `text` is an error made with `errors.New` or `fmt.Errorf`; `remote` stands for
any error handed back by a collaborator (configuration, services, file system);
`NumError input` is the `*strconv.NumError` of a failed `strconv.Atoi(input)`. -/
inductive Error where
  | MissingArgsErr (ns : String)
  | text (msg : String)
  | remote (code : Nat)
  | NumError (input : String)
  deriving DecidableEq, Repr

/-- `doit.NewMissingArgsErr`. -/
def NewMissingArgsErr (ns : String) : Error := .MissingArgsErr ns

/-- The names of the flags (`doit.Arg*`), constants declared outside the files at hand. -/
structure ArgNames where
  ArgRegionSlug : String
  ArgSizeSlug : String
  ArgBackups : String
  ArgIPv6 : String
  ArgPrivateNetworking : String
  ArgSSHKeys : String
  ArgUserData : String
  ArgUserDataFile : String
  ArgDriveList : String
  ArgImage : String
  ArgCommandWait : String
  deriving DecidableEq, Repr

/-- The interface `doit.Config` as the handlers use it: each getter takes the
namespace and the flag name and returns Go's pair of a value and an error. -/
structure Config where
  GetString : String → String → String × Option Error
  GetBool : String → String → Bool × Option Error
  GetStringSlice : String → String → List String × Option Error

/-- `godo.DropletCreateImage`. -/
structure DropletCreateImage where
  ID : Int := 0
  Slug : String := ""
  deriving DecidableEq, Repr

/-- `godo.DropletCreateSSHKey`. -/
structure DropletCreateSSHKey where
  ID : Int := 0
  Fingerprint : String := ""
  deriving DecidableEq, Repr

/-- `godo.DropletDriveRequest`. -/
structure DropletDriveRequest where
  ID : String
  deriving DecidableEq, Repr

/-- `godo.DropletCreateRequest`, the fields `RunDropletCreate` fills. -/
structure DropletCreateRequest where
  Name : String
  Region : String
  Size : String
  Image : DropletCreateImage
  Backups : Bool
  IPv6 : Bool
  PrivateNetworking : Bool
  SSHKeys : List DropletCreateSSHKey
  UserData : String
  Drives : List DropletDriveRequest
  deriving DecidableEq, Repr

/-- `do.Droplet`: the fields of the wrapped `godo.Droplet` the handlers read. -/
structure Droplet where
  ID : Int
  Name : String
  RegionSlug : String
  deriving DecidableEq, Repr

/-- What a handler hands to `c.Display`: the `droplet` displayable among them. -/
inductive Displayable where
  | droplet (droplets : List Droplet)
  | image (images : List String)
  | action (actions : List String)
  | kernel (kernels : List String)
  deriving DecidableEq, Repr

/-- What a handler does that the outside can see: calls on the droplet service and on
the drive action service, items displayed and lines printed, in the order they happen. -/
inductive Event where
  | Create (dcr : DropletCreateRequest) (wait : Bool)
  | Display (item : Displayable)
  | List
  | Delete (id : Int)
  | Get (id : Int)
  | Actions (id : Int)
  | Backups (id : Int)
  | Kernels (id : Int)
  | Neighbors (id : Int)
  | Snapshots (id : Int)
  | Attach (driveID : String) (dropletID : Int)
  | Detach (driveID : String)
  | Printf (text : String)
  deriving DecidableEq, Repr

/-- The interface `do.DropletsService`, the methods the droplet handlers call.  A
method that returns a pointer and an error (`Create`, `Get`) answers with a droplet or
with an error; a method that returns a collection and an error answers with Go's pair,
since a handler may read the collection whatever the error is. -/
structure DropletsService where
  Create : DropletCreateRequest → Bool → Except Error Droplet
  Get : Int → Except Error Droplet
  Delete : Int → Option Error
  Actions : Int → List String × Option Error
  Backups : Int → List String × Option Error
  Kernels : Int → List String × Option Error
  Neighbors : Int → List Droplet × Option Error
  Snapshots : Int → List String × Option Error
  List : List Droplet × Option Error

/-- The interface `do.DriveActionService` (`do/drive_actions.go`). -/
structure DriveActionService where
  Attach : String → Int → Option Error
  Detach : String → Option Error

/-- `CmdConfig`: namespace, configuration, arguments, the services, and the error
`c.Display` returns for an item (the displayer is outside the files at hand). -/
structure CmdConfig where
  NS : String
  Doit : Config
  Args : List String
  Droplets : DropletsService
  DriveActions : DriveActionService
  Display : Displayable → Option Error

/-! ## String helpers of the Go standard library -/

/-- `strconv.Atoi`: an optional sign, then one or more decimal digits, the value within
the 64-bit `int`; `none` is the error result. -/
def Atoi (s : String) : Option Int :=
  let cs := s.data
  let neg := cs.head? == some '-'
  let ds := if cs.head? == some '-' || cs.head? == some '+' then cs.tail else cs
  if ds.isEmpty || !ds.all Char.isDigit then none
  else
    let n : Int := (ds.foldl (fun a ch => 10 * a + (ch.toNat - 48)) 0 : Nat)
    let v : Int := if neg then -n else n
    if -(2 : Int) ^ 63 ≤ v ∧ v < (2 : Int) ^ 63 then some v else none

/-- `strings.TrimPrefix(s, "[")`. -/
def trimOpen (cs : List Char) : List Char :=
  match cs with
  | '[' :: r => r
  | _ => cs

/-- `strings.TrimSuffix(s, "]")`. -/
def trimClose (cs : List Char) : List Char :=
  if cs.getLast? == some ']' then cs.dropLast else cs

/-- `strings.Split(s, ",")` on the characters of `s`: the pieces between commas, one
piece (the empty one) for the empty string. -/
def splitComma : List Char → List (List Char)
  | [] => [[]]
  | ch :: cs =>
    if ch == ',' then [] :: splitComma cs
    else match splitComma cs with
      | [] => [[ch]]
      | piece :: pieces => (ch :: piece) :: pieces

/-- The tokens of one raw list value: brackets trimmed, then split on commas. -/
def listTokens (raw : String) : List String :=
  (splitComma (trimClose (trimOpen raw.data))).map String.mk

/-! ## Droplet creation (`commands/droplets.go`) -/

/-- The body of the inner loop of `extractSSHKeys` for one token: an integer gives an
ID entry when positive and nothing otherwise, any other non-empty token a fingerprint. -/
def sshKeyOfToken (k : String) : List DropletCreateSSHKey :=
  match Atoi k with
  | some i => if i > 0 then [{ ID := i }] else []
  | none => if k != "" then [{ Fingerprint := k }] else []

/-- `extractSSHKeys`. -/
def extractSSHKeys (keys : List String) : List DropletCreateSSHKey :=
  keys.foldl (fun sshKeys rawKey =>
    (listTokens rawKey).foldl (fun sshKeys k => sshKeys ++ sshKeyOfToken k) sshKeys) []

/-- `extractDrives`. -/
def extractDrives (driveList : List String) : List DropletDriveRequest :=
  driveList.foldl (fun drives rawDrive =>
    (listTokens rawDrive).foldl (fun drives v => drives ++ [{ ID := v }]) drives) []

/-- `extractUserData`, with `readFile` standing for `ioutil.ReadFile`. -/
def extractUserData (readFile : String → Except Error String) (userData filename : String) :
    String × Option Error :=
  if userData == "" && filename != "" then
    match readFile filename with
    | .error err => ("", some err)
    | .ok data => (data, none)
  else (userData, none)

/-- The values `RunDropletCreate` has resolved when it reaches `ds := c.Droplets()`. -/
structure CreateSettings where
  region : String
  size : String
  backups : Bool
  ipv6 : Bool
  privateNetworking : Bool
  sshKeys : List DropletCreateSSHKey
  userData : String
  drives : List DropletDriveRequest
  createImage : DropletCreateImage
  wait : Bool
  deriving DecidableEq, Repr

/-- `RunDropletCreate` up to `ds := c.Droplets()`: the argument check and the
resolution of every flag, each `if err != nil { return err }` an early `.error`.
The error of `GetString(c.NS, doit.ArgImage)` is assigned and never looked at: the
next statement declares a new `err` for `strconv.Atoi`, and the one after overwrites
the outer `err` with the result of `GetBool(c.NS, doit.ArgCommandWait)`. -/
def createSettings (A : ArgNames) (readFile : String → Except Error String) (c : CmdConfig) :
    Except Error CreateSettings :=
  if c.Args.length < 1 then .error (NewMissingArgsErr c.NS) else
  match c.Doit.GetString c.NS A.ArgRegionSlug with
  | (_, some err) => .error err
  | (region, none) =>
  match c.Doit.GetString c.NS A.ArgSizeSlug with
  | (_, some err) => .error err
  | (size, none) =>
  match c.Doit.GetBool c.NS A.ArgBackups with
  | (_, some err) => .error err
  | (backups, none) =>
  match c.Doit.GetBool c.NS A.ArgIPv6 with
  | (_, some err) => .error err
  | (ipv6, none) =>
  match c.Doit.GetBool c.NS A.ArgPrivateNetworking with
  | (_, some err) => .error err
  | (privateNetworking, none) =>
  match c.Doit.GetStringSlice c.NS A.ArgSSHKeys with
  | (_, some err) => .error err
  | (keys, none) =>
  let sshKeys := extractSSHKeys keys
  match c.Doit.GetString c.NS A.ArgUserData with
  | (_, some err) => .error err
  | (userData, none) =>
  match c.Doit.GetString c.NS A.ArgUserDataFile with
  | (_, some err) => .error err
  | (filename, none) =>
  match extractUserData readFile userData filename with
  | (_, some err) => .error err
  | (userData, none) =>
  match c.Doit.GetStringSlice c.NS A.ArgDriveList with
  | (_, some err) => .error err
  | (driveList, none) =>
  let drives := extractDrives driveList
  let imageStr := (c.Doit.GetString c.NS A.ArgImage).1
  let createImage : DropletCreateImage :=
    match Atoi imageStr with
    | some i => { ID := i }
    | none => { Slug := imageStr }
  match c.Doit.GetBool c.NS A.ArgCommandWait with
  | (_, some err) => .error err
  | (wait, none) =>
    .ok { region := region, size := size, backups := backups, ipv6 := ipv6,
          privateNetworking := privateNetworking, sshKeys := sshKeys, userData := userData,
          drives := drives, createImage := createImage, wait := wait }

/-- The `godo.DropletCreateRequest` the loop builds for one name. -/
def createRequest (s : CreateSettings) (name : String) : DropletCreateRequest :=
  { Name := name, Region := s.region, Size := s.size, Image := s.createImage,
    Backups := s.backups, IPv6 := s.ipv6, PrivateNetworking := s.privateNetworking,
    SSHKeys := s.sshKeys, UserData := s.userData, Drives := s.drives }

/-- Where one goroutine of the batch stands: launched with its request, back from
`ds.Create` with the result in hand, or finished. -/
inductive Stage where
  | ready
  | created (r : Except Error Droplet)
  | done

/-- One goroutine of the batch: the request it captured and where it stands. -/
structure Job where
  dcr : DropletCreateRequest
  stage : Stage

/-- The batch while its goroutines run: the jobs in launch order, the buffered channel
`errs` (oldest first) with its capacity, and what has been observed so far. -/
structure Batch where
  jobs : List Job
  errs : List Error
  cap : Nat
  trace : List Event

/-- One scheduling step: goroutine `i` runs up to its next visible action.  A launched
job calls `ds.Create`; a job holding an error sends it on `errs`, which it can only do
while the buffer has room (a full buffer leaves it waiting); a job holding a droplet
displays it; a finished job, or an index that names no job, does nothing. -/
def Batch.step (ds : DropletsService) (wait : Bool) (b : Batch) (i : Nat) : Batch :=
  match b.jobs.get? i with
  | none => b
  | some j =>
    match j.stage with
    | .ready =>
      { b with jobs := b.jobs.set i { j with stage := .created (ds.Create j.dcr wait) },
               trace := b.trace ++ [.Create j.dcr wait] }
    | .created (.error err) =>
      if b.errs.length < b.cap then
        { b with jobs := b.jobs.set i { j with stage := .done }, errs := b.errs ++ [err] }
      else b
    | .created (.ok d) =>
      { b with jobs := b.jobs.set i { j with stage := .done },
               trace := b.trace ++ [.Display (.droplet [d])] }
    | .done => b

/-- The batch as the loop leaves it: one job per argument, `errs` made with capacity
`len(c.Args)`. -/
def Batch.launch (s : CreateSettings) (args : List String) : Batch :=
  { jobs := args.map (fun name => { dcr := createRequest s name, stage := .ready }),
    errs := [], cap := args.length, trace := [] }

/-- The goroutines run as the scheduler picks them (`sched`, one job index per step);
once its picks are used up, each job that is still running is given its remaining
steps, in launch order. -/
def Batch.run (ds : DropletsService) (wait : Bool) (sched : List Nat) (b : Batch) : Batch :=
  let b := sched.foldl (Batch.step ds wait) b
  (List.range b.jobs.length).foldl
    (fun b i => Batch.step ds wait (Batch.step ds wait b i) i) b

/-- Whether every goroutine has finished, which is when `wg.Wait()` returns. -/
def Batch.finished (b : Batch) : Bool :=
  b.jobs.all (fun j => match j.stage with
    | .done => true
    | _ => false)

/-- `RunDropletCreate`, for the interleaving of the goroutines the scheduler picks.
The result is the returned error (`none` for nil) and what was observed; it is `none`
when `wg.Wait()` never returns because a goroutine is stuck on a full `errs`. -/
def RunDropletCreate (A : ArgNames) (readFile : String → Except Error String)
    (c : CmdConfig) (sched : List Nat) : Option (Option Error × List Event) :=
  match createSettings A readFile c with
  | .error err => some (some err, [])
  | .ok s =>
    let ds := c.Droplets
    let b := (Batch.launch s c.Args).run ds s.wait sched
    if b.finished then
      match b.errs with
      | err :: _ => some (some err, b.trace)
      | [] => some (none, b.trace)
    else none

/-- The requests of the `Create` calls in a trace, in order. -/
def createdIn (tr : List Event) : List DropletCreateRequest :=
  tr.filterMap (fun ev => match ev with
    | .Create dcr _ => some dcr
    | _ => none)

/-- The items displayed in a trace, in order. -/
def displayedIn (tr : List Event) : List Displayable :=
  tr.filterMap (fun ev => match ev with
    | .Display item => some item
    | _ => none)

/-- Whether a goroutine has called `ds.Create` yet; then the request it sent. -/
def Job.request (j : Job) : Option DropletCreateRequest :=
  match j.stage with
  | .ready => none
  | _ => some j.dcr

/-- What a finished goroutine has displayed: its droplet when `Create` succeeded. -/
def Job.shown (ds : DropletsService) (wait : Bool) (j : Job) : Option Displayable :=
  match j.stage with
  | .done =>
    match ds.Create j.dcr wait with
    | .ok d => some (.droplet [d])
    | .error _ => none
  | _ => none

/-- What a finished goroutine has sent on `errs`: its error when `Create` failed. -/
def Job.sent (ds : DropletsService) (wait : Bool) (j : Job) : Option Error :=
  match j.stage with
  | .done =>
    match ds.Create j.dcr wait with
    | .ok _ => none
    | .error err => some err
  | _ => none

/-- The bookkeeping that holds of a batch at every moment of a run for the requests
`reqs`: the jobs still carry those requests, the channel has room for one error per
job, a result in hand is the result of the job's own `Create`, and the calls made, the
items displayed and the errors queued are those of the jobs that got that far. -/
structure Batch.Consistent (ds : DropletsService) (wait : Bool)
    (reqs : List DropletCreateRequest) (b : Batch) : Prop where
  dcrs : b.jobs.map (fun j => j.dcr) = reqs
  cap_eq : b.cap = reqs.length
  result : ∀ j ∈ b.jobs, ∀ r, j.stage = .created r → r = ds.Create j.dcr wait
  calls : (createdIn b.trace).Perm (b.jobs.filterMap Job.request)
  shows : (displayedIn b.trace).Perm (b.jobs.filterMap (Job.shown ds wait))
  sends : b.errs.Perm (b.jobs.filterMap (Job.sent ds wait))

/-- What the goroutine of a request displays in the end: the droplet `Create` answers
with, nothing when `Create` fails. -/
def displayOf (ds : DropletsService) (wait : Bool) (dcr : DropletCreateRequest) :
    Option Displayable :=
  match ds.Create dcr wait with
  | .ok d => some (.droplet [d])
  | .error _ => none

/-- What the goroutine of a request sends on `errs` in the end: the error of `Create`,
nothing when `Create` succeeds. -/
def errorOf (ds : DropletsService) (wait : Bool) (dcr : DropletCreateRequest) :
    Option Error :=
  match ds.Create dcr wait with
  | .ok _ => none
  | .error err => some err

/-! ## The droplet handlers that read and delete (`commands/droplets.go`) -/

/-- `getDropletIDArg`: exactly one argument, parsed with `strconv.Atoi`. -/
def getDropletIDArg (ns : String) (args : List String) : Int × Option Error :=
  match args with
  | [arg] =>
    match Atoi arg with
    | some id => (id, none)
    | none => (0, some (.NumError arg))
  | _ => (0, some (NewMissingArgsErr ns))

/-- `RunDropletActions`.  The error of `ds.Actions(id)` is assigned and never looked
at: the list goes to `c.Display` whatever it is. -/
def RunDropletActions (c : CmdConfig) : Option Error × List Event :=
  let ds := c.Droplets
  match getDropletIDArg c.NS c.Args with
  | (_, some err) => (some err, [])
  | (id, none) =>
    let list := (ds.Actions id).1
    let item := Displayable.action list
    (c.Display item, [.Actions id, .Display item])

/-- `RunDropletBackups`. -/
def RunDropletBackups (c : CmdConfig) : Option Error × List Event :=
  let ds := c.Droplets
  match getDropletIDArg c.NS c.Args with
  | (_, some err) => (some err, [])
  | (id, none) =>
    match ds.Backups id with
    | (_, some err) => (some err, [.Backups id])
    | (list, none) =>
      let item := Displayable.image list
      (c.Display item, [.Backups id, .Display item])

/-- `RunDropletGet`. -/
def RunDropletGet (c : CmdConfig) : Option Error × List Event :=
  match getDropletIDArg c.NS c.Args with
  | (_, some err) => (some err, [])
  | (id, none) =>
    let ds := c.Droplets
    match ds.Get id with
    | .error err => (some err, [.Get id])
    | .ok d =>
      let item := Displayable.droplet [d]
      (c.Display item, [.Get id, .Display item])

/-- `RunDropletKernels`. -/
def RunDropletKernels (c : CmdConfig) : Option Error × List Event :=
  let ds := c.Droplets
  match getDropletIDArg c.NS c.Args with
  | (_, some err) => (some err, [])
  | (id, none) =>
    match ds.Kernels id with
    | (_, some err) => (some err, [.Kernels id])
    | (list, none) =>
      let item := Displayable.kernel list
      (c.Display item, [.Kernels id, .Display item])

/-- `RunDropletNeighbors`. -/
def RunDropletNeighbors (c : CmdConfig) : Option Error × List Event :=
  let ds := c.Droplets
  match getDropletIDArg c.NS c.Args with
  | (_, some err) => (some err, [])
  | (id, none) =>
    match ds.Neighbors id with
    | (_, some err) => (some err, [.Neighbors id])
    | (list, none) =>
      let item := Displayable.droplet list
      (c.Display item, [.Neighbors id, .Display item])

/-- `RunDropletSnapshots`. -/
def RunDropletSnapshots (c : CmdConfig) : Option Error × List Event :=
  let ds := c.Droplets
  match getDropletIDArg c.NS c.Args with
  | (_, some err) => (some err, [])
  | (id, none) =>
    match ds.Snapshots id with
    | (_, some err) => (some err, [.Snapshots id])
    | (list, none) =>
      let item := Displayable.image list
      (c.Display item, [.Snapshots id, .Display item])

/-- The loop of `RunDropletDelete` over the remaining arguments, with the variables
`listedDroplets` and `list` and what has been observed so far.  An argument that is not
an integer is a name: the droplets are listed once, the first droplet of that name is
taken (`break` on the first hit), and a name nobody carries ends the handler.
`quote` stands for the verb `%q` and `errText` for the text of an error under `%v`. -/
def RunDropletDelete.loop (quote : String → String) (errText : Error → String)
    (ds : DropletsService) :
    List String → Bool → List Droplet → List Event → Option Error × List Event
  | [], _, _, tr => (none, tr)
  | idStr :: rest, listedDroplets, list, tr =>
    let resolved : Except (Option Error × List Event) (Int × Bool × List Droplet × List Event) :=
      match Atoi idStr with
      | some id => .ok (id, listedDroplets, list, tr)
      | none =>
        let fetched : Except (Option Error × List Event) (List Droplet × List Event) :=
          if !listedDroplets then
            match ds.List with
            | (_, some _) =>
              .error (some (.text "unable to build list of droplets"), tr ++ [.List])
            | (l, none) => .ok (l, tr ++ [.List])
          else .ok (list, tr)
        match fetched with
        | .error r => .error r
        | .ok (list, tr) =>
          match list.find? (fun d => d.Name == idStr) with
          | none =>
            .error (some (.text ("unable to find droplet with name " ++ quote idStr)), tr)
          | some matchedDroplet => .ok (matchedDroplet.ID, true, list, tr)
    match resolved with
    | .error r => r
    | .ok (id, listedDroplets, list, tr) =>
      match ds.Delete id with
      | some err =>
        (some (.text ("unable to delete droplet " ++ toString id ++ ": " ++ errText err)),
         tr ++ [.Delete id])
      | none =>
        RunDropletDelete.loop quote errText ds rest listedDroplets list
          (tr ++ [.Delete id, .Printf ("deleted droplet " ++ toString id ++ "\n")])

/-- `RunDropletDelete`. -/
def RunDropletDelete (quote : String → String) (errText : Error → String) (c : CmdConfig) :
    Option Error × List Event :=
  let ds := c.Droplets
  if c.Args.length < 1 then (some (NewMissingArgsErr c.NS), [])
  else RunDropletDelete.loop quote errText ds c.Args false [] []

/-- The identifiers of the `Delete` calls in a trace, in order. -/
def deletedIn (tr : List Event) : List Int :=
  tr.filterMap (fun ev => match ev with
    | .Delete id => some id
    | _ => none)

/-! ## Listing droplets (`commands/droplets.go`) -/

/-- A compiled glob of gobwas/glob, as its `Match` method. -/
abbrev Glob := String → Bool

/-- The loop of `RunDropletList` that compiles the arguments: each compiled glob is
appended to the slice `matches` (`globs` here); an argument that does not compile ends the handler with an
error.  `compile` stands for `glob.Compile` (`none` is its error), `quote` for `%q`. -/
def compileGlobs (quote : String → String) (compile : String → Option Glob) :
    List String → List Glob → Except Error (List Glob)
  | [], globs => .ok globs
  | globStr :: rest, globs =>
    match compile globStr with
    | none => .error (.text ("unknown glob " ++ quote globStr))
    | some g => compileGlobs quote compile rest (globs ++ [g])

/-- The body of the filtering loop of `RunDropletList` for one droplet, up to the final
test: the value of `!skip`. -/
def keepDroplet (globs : List Glob) (region : String) (droplet : Droplet) : Bool :=
  let skip :=
    if globs.length == 0 then false
    else globs.foldl (fun skip m => if m droplet.Name then false else skip) true
  let skip :=
    if !skip && region != "" then
      if region != droplet.RegionSlug then true else skip
    else skip
  !skip

/-- `RunDropletList`. -/
def RunDropletList (A : ArgNames) (quote : String → String) (compile : String → Option Glob)
    (c : CmdConfig) : Option Error × List Event :=
  let ds := c.Droplets
  match c.Doit.GetString c.NS A.ArgRegionSlug with
  | (_, some err) => (some err, [])
  | (region, none) =>
    match compileGlobs quote compile c.Args [] with
    | .error err => (some err, [])
    | .ok globs =>
      match ds.List with
      | (_, some err) => (some err, [.List])
      | (list, none) =>
        let matchedList := list.foldl (fun matchedList droplet =>
          if keepDroplet globs region droplet then matchedList ++ [droplet]
          else matchedList) []
        let item := Displayable.droplet matchedList
        (c.Display item, [.List, .Display item])

/-- A glob compiler for the worked inputs: `*` globs every name, a pattern holding
`[` does not compile, any other pattern globs the name equal to it. -/
def sampleCompile : String → Option Glob := fun pat =>
  if pat = "*" then some (fun _ => true)
  else if '[' ∈ pat.data then none
  else some (fun name => name == pat)

/-! ## Drive actions (`commands/drive_action.go`) -/

/-- `RunDriveAttach`.  When the argument count is not 2 the missing-arguments error is
built and nothing is done with it (there is no `return`).  `c.Args[0]` and `c.Args[1]`
are then read whatever the count: an index out of range is a panic, `none` here. -/
def RunDriveAttach (c : CmdConfig) : Option (Option Error × List Event) :=
  let _built : Option Error :=
    if c.Args.length != 2 then some (NewMissingArgsErr c.NS) else none
  match c.Args.get? 0 with
  | none => none
  | some aID =>
    match c.Args.get? 1 with
    | none => none
    | some arg =>
      match Atoi arg with
      | none => some (some (.NumError arg), [])
      | some dID =>
        let al := c.DriveActions
        match al.Attach aID dID with
        | some err => some (some err, [.Attach aID dID])
        | none =>
          some (none, [.Attach aID dID,
            .Printf ("attached " ++ aID ++ " to " ++ toString dID ++ "\n")])

/-- `RunDriveDetach`: without arguments the missing-arguments error is returned. -/
def RunDriveDetach (c : CmdConfig) : Option (Option Error × List Event) :=
  if c.Args.length == 0 then some (some (NewMissingArgsErr c.NS), [])
  else
    match c.Args.get? 0 with
    | none => none
    | some aID =>
      let al := c.DriveActions
      match al.Detach aID with
      | some err => some (some err, [.Detach aID])
      | none => some (none, [.Detach aID, .Printf ("detached " ++ aID ++ "\n")])

/-! ## Running a command (`commands/doit.go`, `NewCmdConfig` and `CmdBuilder`) -/

/-- `NewCmdConfig`: the context for one execution, the services given as built from the
client. -/
def NewCmdConfig (ns : String) (dc : Config) (args : List String) (ds : DropletsService)
    (das : DriveActionService) (display : Displayable → Option Error) : CmdConfig :=
  { NS := ns, Doit := dc, Args := args, Droplets := ds, DriveActions := das,
    Display := display }

/-- The `Run` closure `CmdBuilder` installs on a command: the runner `cr` is applied to
a context whose namespace is `cmdNS(cmd)` of the command being executed. -/
def CmdBuilder.Run {β : Type} (NSRoot : String) (cr : CmdConfig → β) (dc : Config)
    (ds : DropletsService) (das : DriveActionService) (display : Displayable → Option Error)
    (cmd : Command) (args : List String) : β :=
  let c := NewCmdConfig (cmdNS NSRoot cmd) dc args ds das display
  cr c

/-! ## Listing drives page by page (`do/drive.go`) -/

/-- `godo.Drive`, the fields that identify a drive. -/
structure GodoDrive where
  ID : String
  Name : String
  SizeGB : Int
  deriving DecidableEq, Repr

/-- `do.Drive`, the wrapper holding a `*godo.Drive`. -/
structure Drive where
  godo : GodoDrive
  deriving DecidableEq, Repr

/-- Modelled from the spec: the page token handed to a page fetch (the
`*godo.ListOptions` of the closure), an opaque cursor that is empty for the first
page.  The type is declared outside the files at hand. -/
abbrev PageToken := String

/-- Modelled from the spec: the `*godo.Response` of a page, of which pagination reads
the continuation cursor only; the page is the last one when the cursor is empty. -/
structure Response where
  next : PageToken
  deriving DecidableEq, Repr

/-- The remote list call `client.Storage.ListDrives(region, opt)`, acting on the state
`σ` of the remote side: a page of drives with its response, or an error. -/
abbrev ListDrivesCall (σ : Type) :=
  String → PageToken → σ → Except Error (List GodoDrive × Response) × σ

/-- What a page-fetch closure returns: Go's triple of items (`none` for nil), response
and error, and the state the call leaves behind. -/
abbrev PageFetch (σ α : Type) :=
  PageToken → σ → (Option (List α) × Option Response × Option Error) × σ

/-- Modelled from the spec: `PaginateResp` (`do/pagination.go` is not among the files
at hand).  Start with the empty page token; call the page fetch; on an error drop what
has been accumulated and return the error; otherwise append the items in arrival
order and stop when the continuation is empty, else fetch the page it names.  `fuel`
bounds the number of fetches, `none` meaning it ran out. -/
def PaginateFrom {σ α : Type} (gen : PageFetch σ α) :
    Nat → PageToken → List α → σ → Option ((Option (List α) × Option Error) × σ)
  | 0, _, _, _ => none
  | fuel + 1, tok, acc, st =>
    match gen tok st with
    | ((_, _, some err), st') => some ((none, some err), st')
    | ((items, resp, none), st') =>
      let acc := acc ++ items.getD []
      match resp with
      | none => some ((some acc, none), st')
      | some r =>
        if r.next = "" then some ((some acc, none), st')
        else PaginateFrom gen fuel r.next acc st'

/-- Modelled from the spec: `PaginateResp(gen)`, the aggregator started on the empty
token with nothing accumulated. -/
def PaginateResp {σ α : Type} (gen : PageFetch σ α) (fuel : Nat) (st : σ) :
    Option ((Option (List α) × Option Error) × σ) :=
  PaginateFrom gen fuel "" [] st

/-- The closure `f` of `driveService.List`: one call of `ListDrives`; on an error
`nil, nil, err`, otherwise the drives copied into a fresh slice, the response, and nil. -/
def driveService.fetch {σ : Type} (ListDrives : ListDrivesCall σ) (region : String) :
    PageFetch σ GodoDrive :=
  fun opt st =>
    match ListDrives region opt st with
    | (.error err, st') => ((none, none, some err), st')
    | (.ok (list, resp), st') => ((some (list.map id), some resp, none), st')

/-- `driveService.List`: paginate with the closure; on an error `nil, err`, otherwise
one wrapped `Drive` per item, in order, and nil. -/
def driveService.List {σ : Type} (ListDrives : ListDrivesCall σ) (region : String)
    (fuel : Nat) (st : σ) : Option ((Option (List Drive) × Option Error) × σ) :=
  match PaginateResp (driveService.fetch ListDrives region) fuel st with
  | none => none
  | some ((_, some err), st') => some ((none, some err), st')
  | some ((si, none), st') =>
    some ((some ((si.getD []).map (fun a => { godo := a })), none), st')

/-- A run of the remote list call that serves the pages `pages` one after the other:
every fetch but the last answers with a non-empty continuation, which is the token of
the next fetch, and the last answers with the empty one. -/
inductive ServesPages {σ : Type} (ListDrives : ListDrivesCall σ) (region : String) :
    PageToken → σ → List (List GodoDrive) → σ → Prop where
  | last (tok : PageToken) (st st' : σ) (items : List GodoDrive)
      (h : ListDrives region tok st = (.ok (items, { next := "" }), st')) :
      ServesPages ListDrives region tok st [items] st'
  | more (tok next : PageToken) (st st₁ st' : σ) (items : List GodoDrive)
      (rest : List (List GodoDrive))
      (h : ListDrives region tok st = (.ok (items, { next := next }), st₁))
      (hnext : next ≠ "")
      (hrest : ServesPages ListDrives region next st₁ rest st') :
      ServesPages ListDrives region tok st (items :: rest) st'

/-- A run of the remote list call that serves `good` pages with a continuation and
then fails with `err`, leaving the remote side in the state `st'`. -/
inductive FailsAfter {σ : Type} (ListDrives : ListDrivesCall σ) (region : String) :
    PageToken → σ → Nat → Error → σ → Prop where
  | fail (tok : PageToken) (st st' : σ) (err : Error)
      (h : ListDrives region tok st = (.error err, st')) :
      FailsAfter ListDrives region tok st 0 err st'
  | more (tok next : PageToken) (st st₁ st' : σ) (items : List GodoDrive) (good : Nat)
      (err : Error)
      (h : ListDrives region tok st = (.ok (items, { next := next }), st₁))
      (hnext : next ≠ "")
      (hrest : FailsAfter ListDrives region next st₁ good err st') :
      FailsAfter ListDrives region tok st (good + 1) err st'

/-- A remote side that answers by a script and counts the calls made to it: call
number `k` (from 0) answers with entry `k` of the script, a page carrying the
continuation `"next"` unless it is the last entry, or an error; a call beyond the
script fails. -/
def scripted (script : List (Except Error (List GodoDrive))) : ListDrivesCall Nat :=
  fun _ _ k =>
    match script.get? k with
    | some (.ok items) =>
      (.ok (items, { next := if k + 1 < script.length then "next" else "" }), k + 1)
    | some (.error err) => (.error err, k + 1)
    | none => (.error (.remote 404), k + 1)

/-! ## The key list as the specification words it -/

/-- The slice `extractSSHKeys` returns, Go's nil (`none`) kept apart from the empty
slice: the function starts from the literal `[]godo.DropletCreateSSHKey{}`, which is
not nil, and only appends to it. -/
def extractSSHKeys.slice (keys : List String) : Option (List DropletCreateSSHKey) :=
  some (extractSSHKeys keys)

/-- The entry one token stands for, in the words of the specification: a token that
parses as an integer `i` is the ID `i` when `i > 0` and nothing otherwise; a token that
is not empty and does not parse is a fingerprint; the empty token is nothing. -/
def classifyToken (token : String) : Option DropletCreateSSHKey :=
  match Atoi token with
  | some i => if i > 0 then some { ID := i } else none
  | none => if token = "" then none else some { Fingerprint := token }

/-- The key list in the words of the specification: the tokens of every input string,
in input order, each classified on its own. -/
def sshKeysSpec (keys : List String) : List DropletCreateSSHKey :=
  (keys.flatMap listTokens).filterMap classifyToken

/-- Whether `droplet list` shows a droplet, in the words of the specification: no glob
argument was given or at least one compiled glob matches its name, and the region flag
is empty or equals its region slug. -/
def shownSpec (args : List String) (globs : List Glob) (region : String) (d : Droplet) :
    Bool :=
  (args.isEmpty || globs.any (fun g => g d.Name)) && (region == "" || region == d.RegionSlug)

/-! ## Worked inputs -/

/-- A choice of flag names for the worked inputs. -/
def sampleArgNames : ArgNames :=
  { ArgRegionSlug := "region", ArgSizeSlug := "size", ArgBackups := "enable-backups",
    ArgIPv6 := "enable-ipv6", ArgPrivateNetworking := "enable-private-networking",
    ArgSSHKeys := "ssh-keys", ArgUserData := "user-data", ArgUserDataFile := "user-data-file",
    ArgDriveList := "drives", ArgImage := "image", ArgCommandWait := "wait" }

/-- A configuration in which `--region nyc1 --size 512mb` were given, the image flag
resolves to `image`, and every other flag holds its zero default. -/
def sampleConfig (image : String × Option Error) : Config :=
  { GetString := fun _ key =>
      if key = "region" then ("nyc1", none)
      else if key = "size" then ("512mb", none)
      else if key = "image" then image
      else ("", none),
    GetBool := fun _ _ => (false, none),
    GetStringSlice := fun _ _ => ([], none) }

/-- A droplet service whose `Create` fails with a remote error for the names in
`failing` and answers with a droplet for every other name. -/
def sampleService (failing : List String) : DropletsService :=
  { Create := fun dcr _ =>
      if dcr.Name ∈ failing then .error (.remote 500)
      else .ok { ID := dcr.Name.length, Name := dcr.Name, RegionSlug := dcr.Region },
    Get := fun _ => .error (.remote 404),
    Delete := fun _ => none,
    Actions := fun _ => ([], none),
    Backups := fun _ => ([], none),
    Kernels := fun _ => ([], none),
    Neighbors := fun _ => ([], none),
    Snapshots := fun _ => ([], none),
    List := ([], none) }

/-- The context of `droplet create` for the worked inputs. -/
def sampleCmd (image : String × Option Error) (failing args : List String) : CmdConfig :=
  { NS := "droplet.create", Doit := sampleConfig image, Args := args,
    Droplets := sampleService failing,
    DriveActions := { Attach := fun _ _ => none, Detach := fun _ => none },
    Display := fun _ => none }

/-- A file system without files. -/
def noFile : String → Except Error String := fun _ => .error (.remote 404)

/-- What `sampleCmd ("ubuntu-14-04-x64", none)` resolves its flags to. -/
def sampleSettings : CreateSettings :=
  { region := "nyc1", size := "512mb", backups := false, ipv6 := false,
    privateNetworking := false, sshKeys := [], userData := "", drives := [],
    createImage := { Slug := "ubuntu-14-04-x64" }, wait := false }

/-- A rendering of the verb `%q` for the worked inputs: the text between double quotes. -/
def sampleQuote : String → String := fun s => "\"" ++ s ++ "\""

/-- A rendering of an error under `%v` for the worked inputs. -/
def sampleErrText : Error → String := fun _ => "remote failure"

/-- A droplet service that lists the droplets `list` and deletes whatever it is asked to. -/
def listingService (list : List Droplet) : DropletsService :=
  { sampleService [] with List := (list, none) }

/-- The context of `droplet delete` and `droplet list` for the worked inputs. -/
def listingCmd (list : List Droplet) (args : List String) : CmdConfig :=
  { sampleCmd ("", none) [] args with Droplets := listingService list }

/-- The context of `droplet actions 42` against a service whose `Actions` fails with a
remote error (and a nil list), every other method as in `sampleService`. -/
def failingActionsCmd : CmdConfig :=
  { sampleCmd ("", none) [] ["42"] with
    Droplets := { sampleService [] with Actions := fun _ => ([], some (.remote 500)) } }

/-! # Theorems -/

/-! ## Root configuration precedence -/

theorem lookup_parsed_token (token output : Option String) :
    (parsedFlags token output).Lookup "access-token" =
      some { name := "access-token", usage := "DigitalOcean API V2 Access Token",
             defValue := .str "", value := .str (token.getD ""), changed := token.isSome } := by
  cases token <;> cases output <;> rfl

theorem lookup_parsed_output (token output : Option String) :
    (parsedFlags token output).Lookup "output" =
      some { name := "output", usage := "output formt [text|json]",
             defValue := .str "text", value := .str (output.getD "text"),
             changed := output.isSome } := by
  cases token <;> cases output <;> rfl

theorem initializeConfig_eq (fs : FlagSet) (file : Option (List (String × Value)))
    (ft fo : Flag) (ht : fs.Lookup "access-token" = some ft) (ho : fs.Lookup "output" = some fo) :
    initializeConfig fs file {} =
      { override := (if fo.changed then [("output", fo.value)] else []) ++
                    (if ft.changed then [("access-token", ft.value)] else []),
        pflags := [("output", fo.name), ("access-token", ft.name)],
        env := [("access-token", "DIGITALOCEAN_ACCESS_TOKEN")],
        config := file.getD [],
        defaults := [("output", .str "text")],
        envPrefix := "DIGITALOCEAN" } := by
  cases file <;> cases hft : ft.changed <;> cases hfo : fo.changed <;>
    simp [initializeConfig, loadDefaultSettings, LoadConfig, initFlags, flagVar, ht, ho,
      Viper.Set, Viper.SetDefault, Viper.SetEnvPrefix, Viper.BindEnv, Viper.BindPFlag,
      Viper.ReadConfig, hft, hfo]

theorem get_access_token (parsedAtInit : Bool) (token output : Option String)
    (environ : List (String × String)) (file : Option (List (String × Value))) :
    (initializeConfig (if parsedAtInit then parsedFlags token output else persistentFlags)
        file {}).Get (parsedFlags token output) environ "access-token" =
      match token with
      | some t => some (.str t)
      | none =>
        match (environ.lookup "DIGITALOCEAN_ACCESS_TOKEN").filter (fun s => s != "") with
        | some e => some (.str e)
        | none =>
          match (file.getD []).lookup "access-token" with
          | some x => some x
          | none => some (.str "") := by
  have hp : persistentFlags = parsedFlags none none := rfl
  cases parsedAtInit <;> cases token <;> cases output <;>
    simp only [hp, if_true, if_false, Bool.false_eq_true] <;>
    rw [initializeConfig_eq _ _ _ _ (lookup_parsed_token _ _) (lookup_parsed_output _ _)] <;>
    simp [Viper.Get, lookup_parsed_token, List.lookup, Option.filter]


theorem get_output (parsedAtInit : Bool) (token output : Option String)
    (environ : List (String × String)) (file : Option (List (String × Value))) :
    (initializeConfig (if parsedAtInit then parsedFlags token output else persistentFlags)
        file {}).Get (parsedFlags token output) environ "output" =
      match output with
      | some o => some (.str o)
      | none =>
        match (file.getD []).lookup "output" with
        | some x => some x
        | none => some (.str "text") := by
  have hp : persistentFlags = parsedFlags none none := rfl
  cases parsedAtInit <;> cases token <;> cases output <;>
    simp only [hp, if_true, if_false, Bool.false_eq_true] <;>
    rw [initializeConfig_eq _ _ _ _ (lookup_parsed_token _ _) (lookup_parsed_output _ _)] <;>
    simp [Viper.Get, lookup_parsed_output, List.lookup, Option.filter]

/-- C1. Precedence for the root keys `access-token` and `output` after
`initializeConfig`, whether it ran before or after the command line was parsed: a flag
supplied on the command line wins; without it the bound environment variable (only
`access-token` has one, `DIGITALOCEAN_ACCESS_TOKEN`) when it holds a non-empty string;
without that the configuration-file entry; without that the compiled-in default, which is
`"text"` for `output`. -/
theorem initializeConfig_precedence (parsedAtInit : Bool) (token output : Option String)
    (environ : List (String × String)) (file : Option (List (String × Value)))
    (key : String) (hk : key = "access-token" ∨ key = "output") :
    (∀ x, rootSupplied token output key = some x →
      (initializeConfig (if parsedAtInit then parsedFlags token output else persistentFlags)
        file {}).Get (parsedFlags token output) environ key = some (.str x)) ∧
    (rootSupplied token output key = none →
      ∀ n e, rootEnvName key = some n → environ.lookup n = some e → e ≠ "" →
      (initializeConfig (if parsedAtInit then parsedFlags token output else persistentFlags)
        file {}).Get (parsedFlags token output) environ key = some (.str e)) ∧
    (rootSupplied token output key = none →
      (∀ n, rootEnvName key = some n → environ.lookup n = none) →
      ∀ x, (file.getD []).lookup key = some x →
      (initializeConfig (if parsedAtInit then parsedFlags token output else persistentFlags)
        file {}).Get (parsedFlags token output) environ key = some x) ∧
    (rootSupplied token output key = none →
      (∀ n, rootEnvName key = some n → environ.lookup n = none) →
      (file.getD []).lookup key = none →
      (initializeConfig (if parsedAtInit then parsedFlags token output else persistentFlags)
        file {}).Get (parsedFlags token output) environ key = some (rootDefault key)) := by
  rcases hk with rfl | rfl
  · rw [get_access_token]
    simp only [rootSupplied, rootEnvName, rootDefault, if_true]
    refine ⟨?_, ?_, ?_, ?_⟩
    · intro x hx; simp [hx]
    · intro ht n e hn he hne
      cases hn
      simp [ht, he, Option.filter, hne]
    · intro ht hn x hx
      simp [ht, hn, hx, Option.filter]
    · intro ht hn hx
      simp [ht, hn, hx, Option.filter]
  · rw [get_output]
    have hne : ¬ ("output" = "access-token") := by decide
    simp only [rootSupplied, rootEnvName, rootDefault, if_true, if_neg hne]
    refine ⟨?_, ?_, ?_, ?_⟩
    · intro x hx; simp [hx]
    · intro _ n e hn
      cases hn
    · intro ht _ x hx
      simp [ht, hx]
    · intro ht _ hx
      simp [ht, hx]

theorem initializeConfig_precedence_witness :
    (initializeConfig persistentFlags (some [("access-token", .str "filetok")]) {}).Get
        (parsedFlags none (some "json")) [("DIGITALOCEAN_ACCESS_TOKEN", "envtok")]
        "access-token" = some (.str "envtok") :=
  (initializeConfig_precedence false none (some "json")
    [("DIGITALOCEAN_ACCESS_TOKEN", "envtok")] (some [("access-token", .str "filetok")])
    "access-token" (Or.inl rfl)).2.1 (by decide) "DIGITALOCEAN_ACCESS_TOKEN" "envtok"
    (by decide) (by decide) (by decide)

/-! ## Namespace keys -/

theorem str_append_left_cancel (a b c : String) (h : a ++ b = a ++ c) : b = c := by
  have := congrArg String.data h
  simp only [String.data_append] at this
  exact String.ext (List.append_cancel_left this)

theorem str_append_right_cancel (a b c : String) (h : a ++ c = b ++ c) : a = b := by
  have := congrArg String.data h
  simp only [String.data_append] at this
  exact String.ext (List.append_cancel_right this)

theorem split_at_sep {α : Type} (a : α) :
    ∀ (l₁ l₂ r₁ r₂ : List α), a ∉ l₁ → a ∉ l₂ → l₁ ++ a :: r₁ = l₂ ++ a :: r₂ →
      l₁ = l₂ ∧ r₁ = r₂
  | [], [], _, _, _, _, h => by simpa using h
  | [], y :: l₂, _, _, _, h₂, h => by
      simp only [List.nil_append, List.cons_append, List.cons.injEq] at h
      exact absurd (h.1 ▸ List.mem_cons_self _ _) h₂
  | x :: l₁, [], _, _, h₁, _, h => by
      simp only [List.nil_append, List.cons_append, List.cons.injEq] at h
      exact absurd (h.1 ▸ List.mem_cons_self _ _) h₁
  | x :: l₁, y :: l₂, r₁, r₂, h₁, h₂, h => by
      simp only [List.cons_append, List.cons.injEq] at h
      have ih := split_at_sep a l₁ l₂ r₁ r₂ (fun hm => h₁ (List.mem_cons_of_mem _ hm))
        (fun hm => h₂ (List.mem_cons_of_mem _ hm)) h.2
      exact ⟨by rw [h.1, ih.1], ih.2⟩

theorem join3_inj (p₁ c₁ f₁ p₂ c₂ f₂ : String)
    (hp₁ : '.' ∉ p₁.data) (hc₁ : '.' ∉ c₁.data) (hp₂ : '.' ∉ p₂.data) (hc₂ : '.' ∉ c₂.data)
    (h : p₁ ++ "." ++ c₁ ++ "." ++ f₁ = p₂ ++ "." ++ c₂ ++ "." ++ f₂) :
    p₁ = p₂ ∧ c₁ = c₂ ∧ f₁ = f₂ := by
  have hd := congrArg String.data h
  simp only [String.data_append, List.append_assoc] at hd
  have hdot : (".": String).data = ['.'] := rfl
  simp only [hdot, List.singleton_append] at hd
  obtain ⟨e₁, hd⟩ := split_at_sep '.' _ _ _ _ hp₁ hp₂ hd
  obtain ⟨e₂, e₃⟩ := split_at_sep '.' _ _ _ _ hc₁ hc₂ hd
  exact ⟨String.ext e₁, String.ext e₂, String.ext e₃⟩


/-- C2. `flagName` is exactly `parentName + "." + commandName + "." + flagName`: with
the parent's name for a command that has a parent, with `NSRoot` for one that has none. -/
theorem flagName_format (NSRoot use name : String) (fs : FlagSet) (p : Command) :
    flagName NSRoot (.child use fs p) name
        = p.Name ++ "." ++ (Command.child use fs p).Name ++ "." ++ name ∧
    flagName NSRoot (.root use fs) name
        = NSRoot ++ "." ++ (Command.root use fs).Name ++ "." ++ name :=
  ⟨rfl, rfl⟩

/-- C3. Two sibling commands (same parent, different names) never share the key of a
flag name they both declare. -/
theorem flagName_siblings_differ (NSRoot : String) (c₁ c₂ : Command) (f : String)
    (hparent : c₁.Parent = c₂.Parent) (hname : c₁.Name ≠ c₂.Name) :
    flagName NSRoot c₁ f ≠ flagName NSRoot c₂ f := by
  intro h
  have hp : parentName NSRoot c₁ = parentName NSRoot c₂ := by
    simp only [parentName, hparent]
  simp only [flagName, hp, String.append_assoc] at h
  have h₁ := str_append_left_cancel _ _ _ (str_append_left_cancel _ _ _ h)
  rw [← String.append_assoc, ← String.append_assoc] at h₁
  have h₂ := str_append_right_cancel _ _ _ h₁
  exact hname (str_append_right_cancel _ _ _ h₂)

theorem flagName_siblings_differ_witness :
    flagName "doctl" (.child "create NAME [NAME ...]" [] (.root "droplet" [])) "region"
      ≠ flagName "doctl" (.child "list [GLOB]" [] (.root "droplet" [])) "region" :=
  flagName_siblings_differ "doctl" (.child "create NAME [NAME ...]" [] (.root "droplet" []))
    (.child "list [GLOB]" [] (.root "droplet" [])) "region" rfl (by decide)

/-- C4, as stated, fails: `compute droplet list` and `storage droplet list` are two
different command paths of one tree, yet the key of `format` is the same for both. -/
theorem flagName_not_unique_across_tree :
    ((Command.child "list" [] (.child "droplet" [] (.child "compute" []
          (.root "doctl" [])))).path, "format")
      ≠ ((Command.child "list" [] (.child "droplet" [] (.child "storage" []
          (.root "doctl" [])))).path, "format") ∧
    flagName "doctl"
        (.child "list" [] (.child "droplet" [] (.child "compute" [] (.root "doctl" []))))
        "format"
      = flagName "doctl"
        (.child "list" [] (.child "droplet" [] (.child "storage" [] (.root "doctl" []))))
        "format" := by
  decide

/-- C4, amended. When parent names (or `NSRoot`) and command names hold no dot, two
(command, flag name) pairs get the same key exactly when parent name, command name and
flag name agree: the key is unique per such triple, not per command path. -/
theorem flagName_eq_iff (NSRoot : String) (c₁ c₂ : Command) (n₁ n₂ : String)
    (hp₁ : '.' ∉ (parentName NSRoot c₁).data) (hc₁ : '.' ∉ c₁.Name.data)
    (hp₂ : '.' ∉ (parentName NSRoot c₂).data) (hc₂ : '.' ∉ c₂.Name.data) :
    flagName NSRoot c₁ n₁ = flagName NSRoot c₂ n₂ ↔
      parentName NSRoot c₁ = parentName NSRoot c₂ ∧ c₁.Name = c₂.Name ∧ n₁ = n₂ := by
  constructor
  · intro h
    exact join3_inj _ _ _ _ _ _ hp₁ hc₁ hp₂ hc₂ h
  · rintro ⟨h₁, h₂, h₃⟩
    simp only [flagName, h₁, h₂, h₃]

theorem flagName_eq_iff_witness :
    flagName "doctl" (.child "list [GLOB]" [] (.root "droplet" [])) "region"
        = flagName "doctl" (.child "list" [] (.child "droplet" [] (.root "x" []))) "region" ↔
      parentName "doctl" (.child "list [GLOB]" [] (.root "droplet" []))
          = parentName "doctl" (.child "list" [] (.child "droplet" [] (.root "x" []))) ∧
        (Command.child "list [GLOB]" [] (.root "droplet" [])).Name
          = (Command.child "list" [] (.child "droplet" [] (.root "x" []))).Name ∧
        "region" = "region" :=
  flagName_eq_iff "doctl" (.child "list [GLOB]" [] (.root "droplet" []))
    (.child "list" [] (.child "droplet" [] (.root "x" []))) "region" "region"
    (by decide) (by decide) (by decide) (by decide)

/-! ## Required flags -/

theorem withFlags_Flags (c : Command) (fs : FlagSet) : (c.withFlags fs).Flags = fs := by
  cases c <;> rfl

theorem withFlags_withFlags (c : Command) (fs fs' : FlagSet) :
    (c.withFlags fs).withFlags fs' = c.withFlags fs' := by
  cases c <;> rfl

theorem flagName_withFlags (NSRoot : String) (c : Command) (fs : FlagSet) (n : String) :
    flagName NSRoot (c.withFlags fs) n = flagName NSRoot c n := by
  cases c <;> rfl

theorem Lookup_map (fs : FlagSet) (g : Flag → Flag) (hg : ∀ f, (g f).name = f.name)
    (n : String) : FlagSet.Lookup (fs.map g) n = (FlagSet.Lookup fs n).map g := by
  unfold FlagSet.Lookup
  rw [List.find?_map]
  congr 1
  congr 1
  funext f
  simp [hg]

theorem Lookup_name (fs : FlagSet) (n : String) (f : Flag) (h : fs.Lookup n = some f) :
    f.name = n := by
  unfold FlagSet.Lookup at h
  have := List.find?_some h
  simpa using this

theorem Lookup_append_fresh (fs : FlagSet) (nf : Flag) (h : fs.Lookup nf.name = none) :
    FlagSet.Lookup (fs ++ [nf]) nf.name = some nf := by
  unfold FlagSet.Lookup at *
  rw [List.find?_append, h]
  simp

theorem Lookup_append_other (fs : FlagSet) (nf : Flag) (n : String) (h : n ≠ nf.name) :
    FlagSet.Lookup (fs ++ [nf]) n = fs.Lookup n := by
  unfold FlagSet.Lookup
  rw [List.find?_append]
  have hb : (nf.name == n) = false := by
    simp only [beq_eq_false_iff_ne, ne_eq]
    exact fun e => h e.symm
  simp [List.find?, hb]

/-- What declaring a fresh flag and then applying `requiredOpt` leaves in the flag
set: the new flag carries the marked usage text, every other usage text is as before. -/
theorem requiredOpt_after_declare (rc : String → String) (c : Command)
    (name key desc : String) (dflt : Value) (hfresh : c.Flags.Lookup name = none) :
    ∃ c' fs, c.Flags.declare name dflt desc = some fs ∧
      (∀ v, requiredOpt rc (c.withFlags fs) name key v
        = some (c', v.Set (requiredKey key) (.bool true))) ∧
      c'.usageOf name = some (desc ++ " " ++ rc "(required)") ∧
      (c'.Flags.Lookup name).map (fun f => f.name) = some name ∧
      (∀ other, other ≠ name → c'.usageOf other = c.usageOf other) ∧
      (∀ fs', c'.withFlags fs' = c.withFlags fs') ∧
      (∀ r n, flagName r c' n = flagName r c n) := by
  let nf : Flag := { name := name, usage := desc, defValue := dflt, value := dflt,
                     changed := false }
  let annot : Flag → Flag := fun f =>
    if f.name == key
    then { f with annotations := (BashCompOneRequiredFlag, ["true"]) :: f.annotations } else f
  let mark : Flag → Flag := fun f =>
    if f.name == name then { f with usage := desc ++ " " ++ rc "(required)" } else f
  have hannot : ∀ f, (annot f).name = f.name := by
    intro f; simp only [annot]; split <;> rfl
  have hannotu : ∀ f, (annot f).usage = f.usage := by
    intro f; simp only [annot]; split <;> rfl
  have hmark : ∀ f, (mark f).name = f.name := by
    intro f; simp only [mark]; split <;> rfl
  have hdecl : c.Flags.declare name dflt desc = some (c.Flags ++ [nf]) := by
    simp only [FlagSet.declare, hfresh]
  have hl1 : FlagSet.Lookup ((c.Flags ++ [nf]).map annot) name = some (annot nf) := by
    rw [Lookup_map _ _ hannot, Lookup_append_fresh c.Flags nf hfresh]; rfl
  refine ⟨c.withFlags (((c.Flags ++ [nf]).map annot).map mark), c.Flags ++ [nf], hdecl,
    ?_, ?_, ?_, ?_, ?_, ?_⟩
  · intro v
    simp only [requiredOpt, Command.MarkFlagRequired, FlagSet.SetAnnotation, withFlags_Flags,
      withFlags_withFlags]
    rw [show (List.map (fun f => if f.name == key
            then { f with annotations := (BashCompOneRequiredFlag, ["true"]) :: f.annotations }
            else f) (c.Flags ++ [nf])) = (c.Flags ++ [nf]).map annot from rfl, hl1]
    simp only [FlagSet.setUsage, hannotu]
  · simp only [Command.usageOf, withFlags_Flags]
    rw [Lookup_map _ _ hmark, hl1]
    simp [mark, hannot, hannotu, nf]
  · simp only [withFlags_Flags]
    rw [Lookup_map _ _ hmark, hl1]
    simp [hmark, hannot, nf]
  · intro other ho
    simp only [Command.usageOf, withFlags_Flags]
    rw [Lookup_map _ _ hmark, Lookup_map _ _ hannot, Lookup_append_other c.Flags nf other ho]
    cases hlk : c.Flags.Lookup other with
    | none => rfl
    | some f =>
      have hn : f.name = other := Lookup_name _ _ _ hlk
      have hb : ((annot f).name == name) = false := by
        simp only [hannot, hn, beq_eq_false_iff_ne, ne_eq]; exact ho
      simp only [Option.map_some', mark, hb, hannotu]
      exact congrArg some (hannotu f)
  · intro fs'
    exact withFlags_withFlags _ _ _
  · intro r n
    exact flagName_withFlags _ _ _ _

theorem Get_Set (v : Viper) (key : String) (x : Value) (fs : FlagSet)
    (environ : List (String × String)) : (v.Set key x).Get fs environ key = some x := by
  simp [Viper.Get, Viper.Set, List.lookup]

theorem Get_BindPFlag_Set (v : Viper) (key k' : String) (x : Value) (fl : Option Flag)
    (fs : FlagSet) (environ : List (String × String)) :
    ((v.Set key x).BindPFlag k' fl).Get fs environ key = some x := by
  cases fl <;> simp [Viper.Get, Viper.Set, Viper.BindPFlag, List.lookup]

theorem Get_Set_BindPFlag (v : Viper) (key k' : String) (x : Value) (fl : Option Flag)
    (fs : FlagSet) (environ : List (String × String)) :
    ((v.BindPFlag k' fl).Set key x).Get fs environ key = some x := by
  cases fl <;> simp [Viper.Get, Viper.Set, Viper.BindPFlag, List.lookup]

/-- C5. Adding a flag with `requiredOpt()` through any of the four `Add*Flag` functions
stores `true` under `requiredKey(flagName(c, n)) = flagName(c, n) + ".required"`, turns
the flag's usage text into its description, a space and the "(required)" marker, and
leaves the usage text of every other flag of the command alone. -/
theorem add_flag_required (NSRoot : String) (requiredColor : String → String)
    (cmd : Command) (v : Viper) (name desc : String) (ds : String) (di : Int) (db : Bool)
    (dl : List String) (hfresh : cmd.Flags.Lookup name = none) :
    MarkedRequired NSRoot requiredColor cmd name desc
      (AddStringFlag NSRoot cmd v name ds desc [requiredOpt requiredColor]) ∧
    MarkedRequired NSRoot requiredColor cmd name desc
      (AddIntFlag NSRoot cmd v name di desc [requiredOpt requiredColor]) ∧
    MarkedRequired NSRoot requiredColor cmd name desc
      (AddBoolFlag NSRoot cmd v name db desc [requiredOpt requiredColor]) ∧
    MarkedRequired NSRoot requiredColor cmd name desc
      (AddStringSliceFlag NSRoot cmd v name dl desc [requiredOpt requiredColor]) := by
  refine ⟨?_, ?_, ?_, ?_⟩
  · obtain ⟨c', fs, hd, hr, hu, _, ho, _, _⟩ :=
      requiredOpt_after_declare requiredColor cmd name (flagName NSRoot cmd name) desc
        (.str ds) hfresh
    refine ⟨c', (v.Set (requiredKey (flagName NSRoot cmd name)) (.bool true)).BindPFlag
      (flagName NSRoot cmd name) (c'.Flags.Lookup name), ?_,
      fun fs environ => Get_BindPFlag_Set v _ _ _ _ _ _, rfl, hu, ho⟩
    simp only [AddStringFlag, hd, applyOpts, List.foldlM, Option.bind_eq_bind,
      Option.some_bind, hr, Option.pure_def]
  · obtain ⟨c', fs, hd, hr, hu, _, ho, _, _⟩ :=
      requiredOpt_after_declare requiredColor cmd name (flagName NSRoot cmd name) desc
        (.int di) hfresh
    refine ⟨c', (v.BindPFlag (flagName NSRoot cmd name)
      ((cmd.withFlags fs).Flags.Lookup name)).Set (requiredKey (flagName NSRoot cmd name))
      (.bool true), ?_, fun fs environ => Get_Set_BindPFlag v _ _ _ _ _ _, rfl, hu, ho⟩
    simp only [AddIntFlag, hd, applyOpts, List.foldlM, Option.bind_eq_bind,
      Option.some_bind, hr, Option.pure_def]
  · obtain ⟨c', fs, hd, hr, hu, _, ho, _, _⟩ :=
      requiredOpt_after_declare requiredColor cmd name (flagName NSRoot cmd name) desc
        (.bool db) hfresh
    refine ⟨c', (v.BindPFlag (flagName NSRoot cmd name)
      ((cmd.withFlags fs).Flags.Lookup name)).Set (requiredKey (flagName NSRoot cmd name))
      (.bool true), ?_, fun fs environ => Get_Set_BindPFlag v _ _ _ _ _ _, rfl, hu, ho⟩
    simp only [AddBoolFlag, hd, applyOpts, List.foldlM, Option.bind_eq_bind,
      Option.some_bind, hr, Option.pure_def]
  · obtain ⟨c', fs, hd, hr, hu, _, ho, _, _⟩ :=
      requiredOpt_after_declare requiredColor cmd name (flagName NSRoot cmd name) desc
        (.strs dl) hfresh
    refine ⟨c', (v.BindPFlag (flagName NSRoot cmd name)
      ((cmd.withFlags fs).Flags.Lookup name)).Set (requiredKey (flagName NSRoot cmd name))
      (.bool true), ?_, fun fs environ => Get_Set_BindPFlag v _ _ _ _ _ _, rfl, hu, ho⟩
    simp only [AddStringSliceFlag, hd, applyOpts, List.foldlM, Option.bind_eq_bind,
      Option.some_bind, hr, Option.pure_def]

theorem add_flag_required_witness :
    MarkedRequired "doctl" (fun s => s) (.child "create NAME [NAME ...]" [] (.root "droplet" []))
      "region" "Droplet region"
      (AddStringFlag "doctl" (.child "create NAME [NAME ...]" [] (.root "droplet" [])) {}
        "region" "" "Droplet region" [requiredOpt (fun s => s)]) :=
  (add_flag_required "doctl" (fun s => s) (.child "create NAME [NAME ...]" []
    (.root "droplet" [])) {} "region" "Droplet region" "" 0 false [] (by decide)).1

/-! ## Droplet creation: required flags -/

/-- A failure to resolve the region flag is returned as it is, before any `Create`. -/
theorem RunDropletCreate_region_error (A : ArgNames) (readFile : String → Except Error String)
    (c : CmdConfig) (sched : List Nat) (err : Error) (hargs : 1 ≤ c.Args.length)
    (h : (c.Doit.GetString c.NS A.ArgRegionSlug).2 = some err) :
    RunDropletCreate A readFile c sched = some (some err, []) := by
  have hlt : ¬ c.Args.length < 1 := by omega
  rcases hg : c.Doit.GetString c.NS A.ArgRegionSlug with ⟨x, e⟩
  rw [hg] at h
  cases h
  simp only [RunDropletCreate, createSettings, hlt, if_false, hg]

/-- C6, the code at the failing input: `droplet create web1 --region nyc1 --size 512mb`
without `--image`, where resolving the required image flag fails.  The handler does
not return that error: it calls `Create` with the empty image slug and returns nil. -/
theorem RunDropletCreate_ignores_image_error :
    (sampleConfig ("", some (.MissingArgsErr "droplet.create-image"))).GetString
        "droplet.create" sampleArgNames.ArgImage
      = ("", some (.MissingArgsErr "droplet.create-image")) ∧
    RunDropletCreate sampleArgNames noFile
        (sampleCmd ("", some (.MissingArgsErr "droplet.create-image")) [] ["web1"]) []
      = some (none,
          [.Create { Name := "web1", Region := "nyc1", Size := "512mb", Image := { Slug := "" },
                     Backups := false, IPv6 := false, PrivateNetworking := false,
                     SSHKeys := [], UserData := "", Drives := [] } false,
           .Display (.droplet [{ ID := 4, Name := "web1", RegionSlug := "nyc1" }])]) := by
  decide

/-! ## Droplet creation: the batch of create jobs -/

theorem get?_set_self {α : Type} : ∀ (l : List α) (i : Nat) (a x : α),
    l.get? i = some a → (l.set i x).get? i = some x
  | [], _, _, _, h => by simp at h
  | _ :: _, 0, _, _, _ => by simp
  | _ :: l, i + 1, a, x, h => by
      simp only [List.get?_cons_succ] at h
      simpa using get?_set_self l i a x h

theorem get?_set_other {α : Type} : ∀ (l : List α) (i k : Nat) (x : α),
    k ≠ i → (l.set i x).get? k = l.get? k
  | [], _, _, _, _ => by simp
  | _ :: _, 0, 0, _, h => absurd rfl h
  | _ :: _, 0, k + 1, _, _ => by simp
  | _ :: _, i + 1, 0, _, _ => by simp
  | _ :: l, i + 1, k + 1, x, h => by
      simpa using get?_set_other l i k x (fun e => h (by rw [e]))

theorem map_set_same {α β : Type} (g : α → β) : ∀ (l : List α) (i : Nat) (a x : α),
    l.get? i = some a → g x = g a → (l.set i x).map g = l.map g
  | [], _, _, _, h, _ => by simp at h
  | b :: l, 0, a, x, h, hg => by
      simp only [List.get?_cons_zero, Option.some.injEq] at h
      subst h
      simp [hg]
  | b :: l, i + 1, a, x, h, hg => by
      simp only [List.get?_cons_succ] at h
      simp [map_set_same g l i a x h hg]

theorem filterMap_set_same {α β : Type} (f : α → Option β) : ∀ (l : List α) (i : Nat) (a x : α),
    l.get? i = some a → f x = f a → (l.set i x).filterMap f = l.filterMap f
  | [], _, _, _, h, _ => by simp at h
  | b :: l, 0, a, x, h, hf => by
      simp only [List.get?_cons_zero, Option.some.injEq] at h
      subst h
      simp [List.filterMap_cons, hf]
  | b :: l, i + 1, a, x, h, hf => by
      simp only [List.get?_cons_succ] at h
      simp [List.filterMap_cons, filterMap_set_same f l i a x h hf]

theorem filterMap_set_new {α β : Type} (f : α → Option β) : ∀ (l : List α) (i : Nat) (a x : α)
    (y : β), l.get? i = some a → f a = none → f x = some y →
      ((l.set i x).filterMap f).Perm (y :: l.filterMap f)
  | [], _, _, _, _, h, _, _ => by simp at h
  | b :: l, 0, a, x, y, h, ha, hx => by
      simp only [List.get?_cons_zero, Option.some.injEq] at h
      subst h
      simp [List.filterMap_cons, ha, hx]
  | b :: l, i + 1, a, x, y, h, ha, hx => by
      simp only [List.get?_cons_succ] at h
      have ih := filterMap_set_new f l i a x y h ha hx
      simp only [List.set_cons_succ, List.filterMap_cons]
      cases hb : f b with
      | none => simpa using ih
      | some z => exact (List.Perm.cons z ih).trans (List.Perm.swap y z _)

theorem filterMap_length_lt {α β : Type} (f : α → Option β) : ∀ (l : List α) (a : α),
    a ∈ l → f a = none → (l.filterMap f).length < l.length
  | [], _, h, _ => by simp at h
  | b :: l, a, h, ha => by
      have hle : (l.filterMap f).length ≤ l.length := List.length_filterMap_le f l
      rcases List.mem_cons.1 h with rfl | h'
      · simp only [List.filterMap_cons, ha, List.length_cons]
        omega
      · have ih := filterMap_length_lt f l a h' ha
        simp only [List.filterMap_cons, List.length_cons]
        cases f b <;> simp <;> omega


theorem mem_of_get? {α : Type} : ∀ (l : List α) (i : Nat) (a : α), l.get? i = some a → a ∈ l
  | [], _, _, h => by simp at h
  | b :: l, 0, a, h => by
      simp only [List.get?_cons_zero, Option.some.injEq] at h
      simp [h]
  | b :: l, i + 1, a, h => by
      simp only [List.get?_cons_succ] at h
      exact List.mem_cons_of_mem _ (mem_of_get? l i a h)

theorem createdIn_append (tr : List Event) (ev : Event) :
    createdIn (tr ++ [ev]) = createdIn tr ++ createdIn [ev] := by
  simp [createdIn, List.filterMap_append]

theorem displayedIn_append (tr : List Event) (ev : Event) :
    displayedIn (tr ++ [ev]) = displayedIn tr ++ displayedIn [ev] := by
  simp [displayedIn, List.filterMap_append]

theorem perm_snoc_of_set {α β : Type} (f : α → Option β) (l : List α) (i : Nat) (a x : α)
    (y : β) (tr : List β) (hget : l.get? i = some a) (ha : f a = none) (hx : f x = some y)
    (h : tr.Perm (l.filterMap f)) : (tr ++ [y]).Perm ((l.set i x).filterMap f) :=
  (List.perm_append_singleton y tr).trans
    ((List.Perm.cons y h).trans (filterMap_set_new f l i a x y hget ha hx).symm)

theorem map_dcr_set (l : List Job) (i : Nat) (j : Job) (st : Stage)
    (h : l.get? i = some j) :
    (l.set i { j with stage := st }).map (fun j => j.dcr) = l.map (fun j => j.dcr) :=
  map_set_same (fun j : Job => j.dcr) l i j { j with stage := st } h rfl

theorem step_consistent (ds : DropletsService) (wait : Bool)
    (reqs : List DropletCreateRequest) (b : Batch) (i : Nat)
    (h : b.Consistent ds wait reqs) : (b.step ds wait i).Consistent ds wait reqs := by
  unfold Batch.step
  cases hget : b.jobs.get? i with
  | none => exact h
  | some j =>
    have hmem : j ∈ b.jobs := mem_of_get? _ _ _ hget
    simp only
    cases hst : j.stage with
    | ready =>
      simp only
      refine ⟨?_, h.cap_eq, ?_, ?_, ?_, ?_⟩
      · exact (map_dcr_set b.jobs i j _ hget).trans h.dcrs
      · intro j' hj' r hr
        rcases List.mem_or_eq_of_mem_set hj' with hin | rfl
        · exact h.result j' hin r hr
        · simp only [Stage.created.injEq] at hr
          exact hr.symm
      · rw [createdIn_append]
        exact perm_snoc_of_set _ _ _ _ _ _ _ hget (by simp [Job.request, hst])
          (by simp [Job.request]) h.calls
      · rw [displayedIn_append]
        simp only [displayedIn, List.filterMap_cons, List.filterMap_nil, List.append_nil]
        rw [filterMap_set_same _ _ _ _ _ hget (by simp [Job.shown, hst])]
        exact h.shows
      · simp only
        rw [filterMap_set_same _ _ _ _ _ hget (by simp [Job.sent, hst])]
        exact h.sends
    | done => exact h
    | created r =>
      have hr : r = ds.Create j.dcr wait := h.result j hmem r hst
      cases r with
      | error err =>
        simp only
        split
        · refine ⟨?_, h.cap_eq, ?_, ?_, ?_, ?_⟩
          · exact (map_dcr_set b.jobs i j _ hget).trans h.dcrs
          · intro j' hj' r' hr'
            rcases List.mem_or_eq_of_mem_set hj' with hin | rfl
            · exact h.result j' hin r' hr'
            · simp at hr'
          · simp only
            rw [filterMap_set_same _ _ _ _ _ hget (by simp [Job.request, hst])]
            exact h.calls
          · simp only
            rw [filterMap_set_same _ _ _ _ _ hget (by simp [Job.shown, hst, ← hr])]
            exact h.shows
          · exact perm_snoc_of_set _ _ _ _ _ _ _ hget (by simp [Job.sent, hst])
              (by simp [Job.sent, ← hr]) h.sends
        · exact h
      | ok d =>
        simp only
        refine ⟨?_, h.cap_eq, ?_, ?_, ?_, ?_⟩
        · exact (map_dcr_set b.jobs i j _ hget).trans h.dcrs
        · intro j' hj' r' hr'
          rcases List.mem_or_eq_of_mem_set hj' with hin | rfl
          · exact h.result j' hin r' hr'
          · simp at hr'
        · rw [createdIn_append]
          simp only [createdIn, List.filterMap_cons, List.filterMap_nil, List.append_nil]
          rw [filterMap_set_same _ _ _ _ _ hget (by simp [Job.request, hst])]
          exact h.calls
        · rw [displayedIn_append]
          exact perm_snoc_of_set _ _ _ _ _ _ _ hget (by simp [Job.shown, hst])
            (by simp [Job.shown, ← hr]) h.shows
        · simp only
          rw [filterMap_set_same _ _ _ _ _ hget (by simp [Job.sent, hst, ← hr])]
          exact h.sends


theorem launch_consistent (ds : DropletsService) (s : CreateSettings) (args : List String) :
    (Batch.launch s args).Consistent ds s.wait (args.map (createRequest s)) := by
  refine ⟨?_, ?_, ?_, ?_, ?_, ?_⟩
  · simp [Batch.launch, List.map_map, Function.comp_def]
  · simp [Batch.launch]
  · intro j hj r hr
    simp only [Batch.launch, List.mem_map] at hj
    obtain ⟨name, _, rfl⟩ := hj
    simp at hr
  · have : (Batch.launch s args).jobs.filterMap Job.request = [] := by
      simp [Batch.launch, List.filterMap_map, Function.comp_def, Job.request]
    rw [this]; simp [Batch.launch, createdIn]
  · have : (Batch.launch s args).jobs.filterMap (Job.shown ds s.wait) = [] := by
      simp [Batch.launch, List.filterMap_map, Function.comp_def, Job.shown]
    rw [this]; simp [Batch.launch, displayedIn]
  · have : (Batch.launch s args).jobs.filterMap (Job.sent ds s.wait) = [] := by
      simp [Batch.launch, List.filterMap_map, Function.comp_def, Job.sent]
    rw [this]; simp [Batch.launch]

theorem foldl_step_consistent (ds : DropletsService) (wait : Bool)
    (reqs : List DropletCreateRequest) (sched : List Nat) :
    ∀ (b : Batch), b.Consistent ds wait reqs →
      (sched.foldl (Batch.step ds wait) b).Consistent ds wait reqs := by
  induction sched with
  | nil => intro b h; exact h
  | cons i rest ih => intro b h; exact ih _ (step_consistent ds wait reqs b i h)

theorem step_length (ds : DropletsService) (wait : Bool) (b : Batch) (i : Nat) :
    (b.step ds wait i).jobs.length = b.jobs.length := by
  unfold Batch.step
  cases b.jobs.get? i with
  | none => rfl
  | some j =>
    simp only
    cases j.stage with
    | ready => simp
    | done => rfl
    | created r =>
      cases r with
      | error err => simp only; split <;> simp
      | ok d => simp

theorem step_get?_other (ds : DropletsService) (wait : Bool) (b : Batch) (i k : Nat)
    (hk : k ≠ i) : (b.step ds wait i).jobs.get? k = b.jobs.get? k := by
  unfold Batch.step
  cases b.jobs.get? i with
  | none => rfl
  | some j =>
    simp only
    cases j.stage with
    | ready => exact get?_set_other _ _ _ _ hk
    | done => rfl
    | created r =>
      cases r with
      | error err =>
        simp only
        split
        · exact get?_set_other _ _ _ _ hk
        · rfl
      | ok d => exact get?_set_other _ _ _ _ hk

theorem errs_room (ds : DropletsService) (wait : Bool) (reqs : List DropletCreateRequest)
    (b : Batch) (h : b.Consistent ds wait reqs) (j : Job) (hj : j ∈ b.jobs)
    (hsent : Job.sent ds wait j = none) : b.errs.length < b.cap := by
  have h₁ := h.sends.length_eq
  have h₂ := filterMap_length_lt (Job.sent ds wait) b.jobs j hj hsent
  have h₃ : b.jobs.length = reqs.length := by
    rw [← h.dcrs, List.length_map]
  rw [h.cap_eq]
  omega


theorem step_advance (ds : DropletsService) (wait : Bool) (reqs : List DropletCreateRequest)
    (b : Batch) (i : Nat) (j : Job) (h : b.Consistent ds wait reqs)
    (hget : b.jobs.get? i = some j) :
    ∃ j', (b.step ds wait i).jobs.get? i = some j' ∧
      (j.stage = .ready ∨ j'.stage = .done) := by
  have hmem : j ∈ b.jobs := mem_of_get? _ _ _ hget
  unfold Batch.step
  simp only [hget]
  cases hst : j.stage with
  | ready => exact ⟨_, get?_set_self _ _ _ _ hget, Or.inl rfl⟩
  | done => exact ⟨j, hget, Or.inr hst⟩
  | created r =>
    cases r with
    | error err =>
      have hroom : b.errs.length < b.cap :=
        errs_room ds wait reqs b h j hmem (by simp [Job.sent, hst])
      simp only [hroom, if_true]
      exact ⟨_, get?_set_self _ _ _ _ hget, Or.inr rfl⟩
    | ok d => exact ⟨_, get?_set_self _ _ _ _ hget, Or.inr rfl⟩

theorem step_not_ready (ds : DropletsService) (wait : Bool) (b : Batch) (i : Nat) (j j' : Job)
    (hget : b.jobs.get? i = some j) (hget' : (b.step ds wait i).jobs.get? i = some j') :
    j'.stage ≠ .ready := by
  unfold Batch.step at hget'
  simp only [hget] at hget'
  cases hst : j.stage with
  | ready =>
    simp only [hst] at hget'
    rw [get?_set_self _ _ _ _ hget] at hget'
    cases hget'
    simp
  | done =>
    simp only [hst] at hget'
    rw [hget] at hget'
    cases hget'
    simp [hst]
  | created r =>
    simp only [hst] at hget'
    cases r with
    | error err =>
      simp only at hget'
      split at hget'
      · rw [get?_set_self _ _ _ _ hget] at hget'
        cases hget'
        simp
      · rw [hget] at hget'
        cases hget'
        simp [hst]
    | ok d =>
      simp only at hget'
      rw [get?_set_self _ _ _ _ hget] at hget'
      cases hget'
      simp

theorem step_twice_done (ds : DropletsService) (wait : Bool) (reqs : List DropletCreateRequest)
    (b : Batch) (i : Nat) (j : Job) (h : b.Consistent ds wait reqs)
    (hget : b.jobs.get? i = some j) :
    ∃ j', ((b.step ds wait i).step ds wait i).jobs.get? i = some j' ∧ j'.stage = .done := by
  obtain ⟨j₁, hget₁, _⟩ := step_advance ds wait reqs b i j h hget
  have h₁ := step_consistent ds wait reqs b i h
  obtain ⟨j₂, hget₂, hor⟩ := step_advance ds wait reqs _ i j₁ h₁ hget₁
  refine ⟨j₂, hget₂, ?_⟩
  rcases hor with hready | hdone
  · exact absurd hready (step_not_ready ds wait b i j j₁ hget hget₁)
  · exact hdone


theorem drain_done (ds : DropletsService) (wait : Bool) (reqs : List DropletCreateRequest)
    (b : Batch) (h : b.Consistent ds wait reqs) :
    ∀ k, k ≤ b.jobs.length →
      ((List.range k).foldl (fun b i => (b.step ds wait i).step ds wait i) b).Consistent
          ds wait reqs ∧
      ((List.range k).foldl (fun b i => (b.step ds wait i).step ds wait i) b).jobs.length
          = b.jobs.length ∧
      ∀ i, i < k → ∀ j,
        ((List.range k).foldl (fun b i => (b.step ds wait i).step ds wait i) b).jobs.get? i
          = some j → j.stage = .done := by
  intro k
  induction k with
  | zero =>
    intro _
    exact ⟨h, rfl, fun i hi => absurd hi (Nat.not_lt_zero i)⟩
  | succ k ih =>
    intro hk
    obtain ⟨hc, hlen, hdone⟩ := ih (by omega)
    rw [List.range_succ, List.foldl_append]
    simp only [List.foldl_cons, List.foldl_nil]
    generalize (List.range k).foldl (fun b i => (b.step ds wait i).step ds wait i) b = b' at *
    refine ⟨step_consistent _ _ _ _ _ (step_consistent _ _ _ _ _ hc), ?_, ?_⟩
    · rw [step_length, step_length, hlen]
    · intro i hi j hget
      by_cases hik : i = k
      · subst hik
        have hlt : i < b'.jobs.length := by omega
        obtain ⟨j₀, hj₀⟩ : ∃ j₀, b'.jobs.get? i = some j₀ :=
          ⟨b'.jobs.get ⟨i, hlt⟩, List.get?_eq_get hlt⟩
        obtain ⟨j', hget', hst⟩ := step_twice_done ds wait reqs b' i j₀ hc hj₀
        rw [hget'] at hget
        cases hget
        exact hst
      · rw [step_get?_other _ _ _ _ _ hik, step_get?_other _ _ _ _ _ hik] at hget
        exact hdone i (by omega) j hget

theorem run_spec (ds : DropletsService) (wait : Bool) (reqs : List DropletCreateRequest)
    (sched : List Nat) (b : Batch) (h : b.Consistent ds wait reqs) :
    (b.run ds wait sched).Consistent ds wait reqs ∧
      ∀ j ∈ (b.run ds wait sched).jobs, j.stage = .done := by
  unfold Batch.run
  have h₁ := foldl_step_consistent ds wait reqs sched b h
  obtain ⟨hc, _, hdone⟩ := drain_done ds wait reqs _ h₁ _ (le_refl _)
  refine ⟨hc, ?_⟩
  intro j hj
  obtain ⟨i, hi⟩ := List.get?_of_mem hj
  have hlt : i < (List.foldl (Batch.step ds wait) b sched).jobs.length := by
    by_contra hge
    have hlen := (drain_done ds wait reqs _ h₁ _ (le_refl _)).2.1
    have : ((List.range (List.foldl (Batch.step ds wait) b sched).jobs.length).foldl
        (fun b i => (b.step ds wait i).step ds wait i)
        (List.foldl (Batch.step ds wait) b sched)).jobs.length ≤ i := by
      rw [hlen]; omega
    rw [List.get?_eq_none.2 this] at hi
    cases hi
  exact hdone i hlt j hi

theorem filterMap_of_done {β : Type} (f : Job → Option β) (g : DropletCreateRequest → Option β)
    (hfg : ∀ j : Job, j.stage = .done → f j = g j.dcr) :
    ∀ (l : List Job), (∀ j ∈ l, j.stage = .done) →
      l.filterMap f = (l.map (fun j => j.dcr)).filterMap g
  | [], _ => rfl
  | j :: l, h => by
      have hj := hfg j (h j (List.mem_cons_self _ _))
      have ih := filterMap_of_done f g hfg l (fun j' hj' => h j' (List.mem_cons_of_mem _ hj'))
      simp only [List.filterMap_cons, List.map_cons, hj, ih]

theorem finished_of_done (b : Batch) (h : ∀ j ∈ b.jobs, j.stage = .done) :
    b.finished = true := by
  unfold Batch.finished
  rw [List.all_eq_true]
  intro j hj
  rw [h j hj]

/-- The batch of `RunDropletCreate` for any interleaving: the call returns, `Create` was
called once per argument, the droplets displayed are those of the successful jobs, and
the result is the head of the queued errors, which are those of the failed jobs. -/
theorem RunDropletCreate_batch (A : ArgNames) (readFile : String → Except Error String)
    (c : CmdConfig) (sched : List Nat) (s : CreateSettings)
    (hs : createSettings A readFile c = .ok s) :
    ∃ (errs : List Error) (tr : List Event),
      RunDropletCreate A readFile c sched = some (errs.head?, tr) ∧
      (createdIn tr).Perm (c.Args.map (createRequest s)) ∧
      (displayedIn tr).Perm
        ((c.Args.map (createRequest s)).filterMap (displayOf c.Droplets s.wait)) ∧
      errs.Perm ((c.Args.map (createRequest s)).filterMap (errorOf c.Droplets s.wait)) := by
  obtain ⟨hc, hdone⟩ := run_spec c.Droplets s.wait _ sched _
    (launch_consistent c.Droplets s c.Args)
  have hfin := finished_of_done _ hdone
  have hreq := filterMap_of_done Job.request some
    (fun j hj => by simp [Job.request, hj]) _ hdone
  have hshow := filterMap_of_done (Job.shown c.Droplets s.wait) (displayOf c.Droplets s.wait)
    (fun j hj => by simp [Job.shown, displayOf, hj]) _ hdone
  have hsent := filterMap_of_done (Job.sent c.Droplets s.wait) (errorOf c.Droplets s.wait)
    (fun j hj => by simp [Job.sent, errorOf, hj]) _ hdone
  rw [hc.dcrs] at hreq hshow hsent
  rw [List.filterMap_some] at hreq
  refine ⟨((Batch.launch s c.Args).run c.Droplets s.wait sched).errs,
    ((Batch.launch s c.Args).run c.Droplets s.wait sched).trace, ?_, ?_, ?_, ?_⟩
  · simp only [RunDropletCreate, hs, hfin, if_true]
    cases ((Batch.launch s c.Args).run c.Droplets s.wait sched).errs <;> rfl
  · exact hreq ▸ hc.calls
  · exact hshow ▸ hc.shows
  · exact hsent ▸ hc.sends

/-- C9. With every flag resolved (which takes at least one name), whatever the interleaving of
the create jobs, `RunDropletCreate` returns once all of them have completed; it returns
nil exactly when every job's `Create` succeeded, and otherwise the first error queued
on `errs`, which is the error of one of the failed jobs. -/
theorem RunDropletCreate_error_result (A : ArgNames)
    (readFile : String → Except Error String) (c : CmdConfig) (sched : List Nat)
    (s : CreateSettings) (hs : createSettings A readFile c = .ok s) :
    ∃ (errs : List Error) (tr : List Event),
      RunDropletCreate A readFile c sched = some (errs.head?, tr) ∧
      errs.Perm ((c.Args.map (createRequest s)).filterMap (errorOf c.Droplets s.wait)) ∧
      (errs.head? = none ↔
        ∀ name ∈ c.Args, ∃ d, c.Droplets.Create (createRequest s name) s.wait = .ok d) ∧
      (∀ err, errs.head? = some err →
        ∃ name ∈ c.Args, c.Droplets.Create (createRequest s name) s.wait = .error err) := by
  obtain ⟨errs, tr, hrun, _, _, hsent⟩ := RunDropletCreate_batch A readFile c sched s hs
  refine ⟨errs, tr, hrun, hsent, ?_, ?_⟩
  · constructor
    · intro hnone name hname
      have hnil : errs = [] := by
        cases errs with
        | nil => rfl
        | cons e es => simp at hnone
      rw [hnil] at hsent
      have hempty := List.Perm.nil_eq hsent
      cases hcr : c.Droplets.Create (createRequest s name) s.wait with
      | ok d => exact ⟨d, rfl⟩
      | error err =>
        have : err ∈ (c.Args.map (createRequest s)).filterMap (errorOf c.Droplets s.wait) := by
          rw [List.mem_filterMap]
          exact ⟨createRequest s name, List.mem_map_of_mem _ hname, by simp [errorOf, hcr]⟩
        rw [← hempty] at this
        simp at this
    · intro hall
      cases hE : errs with
      | nil => rfl
      | cons e es =>
        have he : e ∈ (c.Args.map (createRequest s)).filterMap (errorOf c.Droplets s.wait) :=
          hsent.subset (by rw [hE]; exact List.mem_cons_self _ _)
        rw [List.mem_filterMap] at he
        obtain ⟨dcr, hdcr, herr⟩ := he
        obtain ⟨name, hname, rfl⟩ := List.mem_map.1 hdcr
        obtain ⟨d, hd⟩ := hall name hname
        simp [errorOf, hd] at herr
  · intro err herr
    have hmem : err ∈ errs := List.mem_of_mem_head? herr
    have he := hsent.subset hmem
    rw [List.mem_filterMap] at he
    obtain ⟨dcr, hdcr, herr'⟩ := he
    obtain ⟨name, hname, rfl⟩ := List.mem_map.1 hdcr
    refine ⟨name, hname, ?_⟩
    cases hcr : c.Droplets.Create (createRequest s name) s.wait with
    | ok d => simp [errorOf, hcr] at herr'
    | error e =>
      simp only [errorOf, hcr, Option.some.injEq] at herr'
      rw [herr']

theorem RunDropletCreate_error_result_witness :
    ∃ (errs : List Error) (tr : List Event),
      RunDropletCreate sampleArgNames noFile
          (sampleCmd ("ubuntu-14-04-x64", none) ["b"] ["a", "b"]) [1, 0, 0]
        = some (errs.head?, tr) ∧
      errs.Perm ((["a", "b"].map (createRequest sampleSettings)).filterMap
        (errorOf (sampleService ["b"]) false)) ∧
      (errs.head? = none ↔
        ∀ name ∈ ["a", "b"], ∃ d,
          (sampleService ["b"]).Create (createRequest sampleSettings name) false = .ok d) ∧
      (∀ err, errs.head? = some err →
        ∃ name ∈ ["a", "b"],
          (sampleService ["b"]).Create (createRequest sampleSettings name) false
            = .error err) :=
  RunDropletCreate_error_result sampleArgNames noFile
    (sampleCmd ("ubuntu-14-04-x64", none) ["b"] ["a", "b"]) [1, 0, 0] sampleSettings rfl

/-- C10. Whatever the interleaving, `RunDropletCreate` launches one create job per name
argument, each carrying its name, on an error channel with room for one error per job,
so that no job waits on it and the call returns; `Create` is called exactly once per
argument; each job whose `Create` succeeds displays its droplet exactly once and a
failing job displays nothing, whether or not sibling jobs fail; and the call returns a
non-nil error as soon as one job fails. -/
theorem RunDropletCreate_batch_independence (A : ArgNames)
    (readFile : String → Except Error String) (c : CmdConfig) (sched : List Nat)
    (s : CreateSettings) (hs : createSettings A readFile c = .ok s) :
    (Batch.launch s c.Args).cap = c.Args.length ∧
    (Batch.launch s c.Args).jobs.map (fun j => j.dcr.Name) = c.Args ∧
    ∃ (r : Option Error) (tr : List Event),
      RunDropletCreate A readFile c sched = some (r, tr) ∧
      (createdIn tr).Perm (c.Args.map (createRequest s)) ∧
      (displayedIn tr).Perm
        ((c.Args.map (createRequest s)).filterMap (displayOf c.Droplets s.wait)) ∧
      ((∃ name ∈ c.Args, ∃ err,
          c.Droplets.Create (createRequest s name) s.wait = .error err) → r ≠ none) := by
  obtain ⟨errs, tr, hrun, hcalls, hshows, hsent⟩ :=
    RunDropletCreate_batch A readFile c sched s hs
  refine ⟨rfl, ?_, errs.head?, tr, hrun, hcalls, hshows, ?_⟩
  · simp [Batch.launch, List.map_map, Function.comp_def, createRequest]
  · rintro ⟨name, hname, err, herr⟩ hnone
    have hmem : err ∈ (c.Args.map (createRequest s)).filterMap (errorOf c.Droplets s.wait) := by
      rw [List.mem_filterMap]
      exact ⟨createRequest s name, List.mem_map_of_mem _ hname, by simp [errorOf, herr]⟩
    have hmem' := hsent.symm.subset hmem
    cases errs with
    | nil => simp at hmem'
    | cons e es => simp at hnone

theorem RunDropletCreate_batch_independence_witness :
    (Batch.launch sampleSettings ["a", "b", "c", "d", "e"]).cap = 5 ∧
    (Batch.launch sampleSettings ["a", "b", "c", "d", "e"]).jobs.map (fun j => j.dcr.Name)
      = ["a", "b", "c", "d", "e"] ∧
    ∃ (r : Option Error) (tr : List Event),
      RunDropletCreate sampleArgNames noFile
          (sampleCmd ("ubuntu-14-04-x64", none) ["c"] ["a", "b", "c", "d", "e"])
          [4, 4, 0, 1, 2, 3, 0, 2] = some (r, tr) ∧
      (createdIn tr).Perm (["a", "b", "c", "d", "e"].map (createRequest sampleSettings)) ∧
      (displayedIn tr).Perm
        ((["a", "b", "c", "d", "e"].map (createRequest sampleSettings)).filterMap
          (displayOf (sampleService ["c"]) false)) ∧
      ((∃ name ∈ ["a", "b", "c", "d", "e"], ∃ err,
          (sampleService ["c"]).Create (createRequest sampleSettings name) false
            = .error err) → r ≠ none) :=
  RunDropletCreate_batch_independence sampleArgNames noFile
    (sampleCmd ("ubuntu-14-04-x64", none) ["c"] ["a", "b", "c", "d", "e"])
    [4, 4, 0, 1, 2, 3, 0, 2] sampleSettings rfl

/-! ## Listing drives page by page -/

theorem PaginateFrom_serves {σ : Type} (ListDrives : ListDrivesCall σ) (region : String)
    (tok : PageToken) (st st' : σ) (pages : List (List GodoDrive))
    (h : ServesPages ListDrives region tok st pages st') :
    ∀ (fuel : Nat) (acc : List GodoDrive), pages.length ≤ fuel →
      PaginateFrom (driveService.fetch ListDrives region) fuel tok acc st
        = some ((some (acc ++ pages.flatten), none), st') := by
  induction h with
  | last tok st st' items h =>
    intro fuel acc hfuel
    cases fuel with
    | zero => simp at hfuel
    | succ fuel => simp [PaginateFrom, driveService.fetch, h]
  | more tok next st st₁ st' items rest h hnext _ ih =>
    intro fuel acc hfuel
    cases fuel with
    | zero => simp at hfuel
    | succ fuel =>
      have hle : rest.length ≤ fuel := by simpa using hfuel
      simp [PaginateFrom, driveService.fetch, h, hnext, ih fuel (acc ++ items) hle]

theorem PaginateFrom_fails {σ : Type} (ListDrives : ListDrivesCall σ) (region : String)
    (tok : PageToken) (st st' : σ) (good : Nat) (err : Error)
    (h : FailsAfter ListDrives region tok st good err st') :
    ∀ (fuel : Nat) (acc : List GodoDrive), good + 1 ≤ fuel →
      PaginateFrom (driveService.fetch ListDrives region) fuel tok acc st
        = some ((none, some err), st') := by
  induction h with
  | fail tok st st' err h =>
    intro fuel acc hfuel
    cases fuel with
    | zero => simp at hfuel
    | succ fuel => simp [PaginateFrom, driveService.fetch, h]
  | more tok next st st₁ st' items good err h hnext _ ih =>
    intro fuel acc hfuel
    cases fuel with
    | zero => simp at hfuel
    | succ fuel =>
      have hle : good + 1 ≤ fuel := by omega
      simp [PaginateFrom, driveService.fetch, h, hnext, ih fuel (acc ++ items) hle]


/-- C7. When the remote list call serves a finite sequence of pages, every page but the
last carrying a continuation, `driveService.List` given fuel for that many fetches
returns the pages' items concatenated in page order and in-page order, one wrapped
`Drive` per item, and no error; a single page without items and without continuation
gives the empty collection and no error. -/
theorem List_concatenates_pages {σ : Type} (ListDrives : ListDrivesCall σ) (region : String)
    (st st' : σ) (pages : List (List GodoDrive))
    (h : ServesPages ListDrives region "" st pages st') :
    (∀ fuel, pages.length ≤ fuel →
      driveService.List ListDrives region fuel st
        = some ((some (pages.flatten.map (fun a => { godo := a })), none), st')) ∧
    (pages = [[]] →
      driveService.List ListDrives region 1 st = some ((some [], none), st')) := by
  have key : ∀ fuel, pages.length ≤ fuel →
      driveService.List ListDrives region fuel st
        = some ((some (pages.flatten.map (fun a => { godo := a })), none), st') := by
    intro fuel hfuel
    simp [driveService.List, PaginateResp,
      PaginateFrom_serves ListDrives region "" st st' pages h fuel [] hfuel]
  refine ⟨key, ?_⟩
  intro hp
  have := key 1 (by simp [hp])
  simpa [hp] using this

theorem List_concatenates_pages_witness :
    driveService.List
        (scripted [.ok [⟨"1", "a", 10⟩, ⟨"2", "b", 10⟩], .ok [⟨"3", "c", 10⟩], .ok []])
        "nyc1" 3 0
      = some ((some [⟨⟨"1", "a", 10⟩⟩, ⟨⟨"2", "b", 10⟩⟩, ⟨⟨"3", "c", 10⟩⟩], none), 3) :=
  (List_concatenates_pages
    (scripted [.ok [⟨"1", "a", 10⟩, ⟨"2", "b", 10⟩], .ok [⟨"3", "c", 10⟩], .ok []])
    "nyc1" 0 3 [[⟨"1", "a", 10⟩, ⟨"2", "b", 10⟩], [⟨"3", "c", 10⟩], []]
    (.more "" "next" 0 1 3 _ _ rfl (by decide)
      (.more "next" "next" 1 2 3 _ _ rfl (by decide) (.last "next" 2 3 _ rfl)))).1
    3 (le_refl 3)

/-- C8. When a page fetch made during `driveService.List` fails, after any number of
pages served with a continuation, `List` returns that error with a nil collection, not
the items of the earlier pages, and leaves the remote side as the failing call left
it: no further fetch is made. -/
theorem List_error_drops_pages {σ : Type} (ListDrives : ListDrivesCall σ) (region : String)
    (st st' : σ) (good : Nat) (err : Error)
    (h : FailsAfter ListDrives region "" st good err st') :
    ∀ fuel, good + 1 ≤ fuel →
      driveService.List ListDrives region fuel st = some ((none, some err), st') := by
  intro fuel hfuel
  simp [driveService.List, PaginateResp,
    PaginateFrom_fails ListDrives region "" st st' good err h fuel [] hfuel]

theorem List_error_drops_pages_witness :
    driveService.List
        (scripted [.ok [⟨"1", "a", 10⟩, ⟨"2", "b", 10⟩], .error (.remote 500),
          .ok [⟨"3", "c", 10⟩]])
        "nyc1" 2 0
      = some ((none, some (.remote 500)), 2) :=
  List_error_drops_pages
    (scripted [.ok [⟨"1", "a", 10⟩, ⟨"2", "b", 10⟩], .error (.remote 500),
      .ok [⟨"3", "c", 10⟩]])
    "nyc1" 0 2 1 (.remote 500)
    (.more "" "next" 0 1 2 [⟨"1", "a", 10⟩, ⟨"2", "b", 10⟩] 0 (.remote 500) rfl (by decide)
      (.fail "next" 1 2 (.remote 500) rfl))
    2 (le_refl 2)

/-! ## Deleting droplets by name -/

theorem find?_of_filter_singleton {α : Type} (p : α → Bool) :
    ∀ (l : List α) (d : α), l.filter p = [d] → l.find? p = some d
  | [], _, h => by simp at h
  | a :: l, d, h => by
      cases hp : p a with
      | true =>
        simp only [List.filter_cons, hp, if_true, List.cons.injEq] at h
        simp [List.find?_cons, hp, ← h.1]
      | false =>
        simp only [List.filter_cons, hp, Bool.false_eq_true, if_false] at h
        simp [List.find?_cons, hp, find?_of_filter_singleton p l d h]

theorem find?_isSome_of_filter_ne_nil {α : Type} (p : α → Bool) (l : List α)
    (h : l.filter p ≠ []) : ∃ d, l.find? p = some d ∧ (l.filter p).head? = some d := by
  induction l with
  | nil => simp at h
  | cons a l ih =>
    cases hp : p a with
    | true => exact ⟨a, by simp [List.find?_cons, hp], by simp [List.filter_cons, hp]⟩
    | false =>
      have h' : l.filter p ≠ [] := by simpa [List.filter_cons, hp] using h
      obtain ⟨d, h₁, h₂⟩ := ih h'
      exact ⟨d, by simp [List.find?_cons, hp, h₁], by simp [List.filter_cons, hp, h₂]⟩

/-- `RunDropletDelete` on a single argument that is a name, with the droplets listed. -/
theorem RunDropletDelete_name (quote : String → String) (errText : Error → String)
    (c : CmdConfig) (X : String) (list : List Droplet) (hargs : c.Args = [X])
    (hX : Atoi X = none) (hlist : c.Droplets.List = (list, none)) :
    RunDropletDelete quote errText c =
      match list.find? (fun d => d.Name == X) with
      | none => (some (.text ("unable to find droplet with name " ++ quote X)), [.List])
      | some d =>
        match c.Droplets.Delete d.ID with
        | some err =>
          (some (.text ("unable to delete droplet " ++ toString d.ID ++ ": " ++ errText err)),
           [.List, .Delete d.ID])
        | none =>
          (none, [.List, .Delete d.ID, .Printf ("deleted droplet " ++ toString d.ID ++ "\n")]) := by
  simp only [RunDropletDelete, hargs, List.length_singleton, Nat.lt_irrefl, if_false,
    RunDropletDelete.loop, hX, hlist, Bool.not_false, if_true, List.nil_append]
  cases list.find? (fun d => d.Name == X) with
  | none => rfl
  | some d =>
    simp only
    cases c.Droplets.Delete d.ID <;> rfl


/-- C11. `RunDropletDelete` on a single argument `X` that is not a number, with the
droplets listed: when no listed droplet is named `X` it returns the error that no
droplet named `X` could be found and makes no delete call; when exactly one is named
`X` it makes exactly one delete call, with that droplet's ID, and returns nil when the
delete succeeds. -/
theorem RunDropletDelete_by_name (quote : String → String) (errText : Error → String)
    (c : CmdConfig) (X : String) (list : List Droplet) (hargs : c.Args = [X])
    (hX : Atoi X = none) (hlist : c.Droplets.List = (list, none)) :
    ((∀ d ∈ list, d.Name ≠ X) →
      RunDropletDelete quote errText c
        = (some (.text ("unable to find droplet with name " ++ quote X)), [.List]) ∧
      deletedIn (RunDropletDelete quote errText c).2 = []) ∧
    (∀ d, list.filter (fun d => d.Name == X) = [d] →
      deletedIn (RunDropletDelete quote errText c).2 = [d.ID] ∧
      (c.Droplets.Delete d.ID = none → (RunDropletDelete quote errText c).1 = none)) := by
  rw [RunDropletDelete_name quote errText c X list hargs hX hlist]
  constructor
  · intro hnone
    have hfind : list.find? (fun d => d.Name == X) = none := by
      rw [List.find?_eq_none]
      intro d hd
      simpa using hnone d hd
    simp [hfind, deletedIn]
  · intro d hd
    rw [find?_of_filter_singleton _ list d hd]
    simp only
    cases hdel : c.Droplets.Delete d.ID with
    | none => simp [deletedIn]
    | some err => simp [deletedIn]

theorem RunDropletDelete_by_name_witness :
    deletedIn (RunDropletDelete sampleQuote sampleErrText
        (listingCmd [⟨1, "web", "nyc1"⟩, ⟨2, "db", "nyc1"⟩] ["db"])).2 = [2] ∧
      ((listingService [⟨1, "web", "nyc1"⟩, ⟨2, "db", "nyc1"⟩]).Delete 2 = none →
        (RunDropletDelete sampleQuote sampleErrText
          (listingCmd [⟨1, "web", "nyc1"⟩, ⟨2, "db", "nyc1"⟩] ["db"])).1 = none) :=
  (RunDropletDelete_by_name sampleQuote sampleErrText
    (listingCmd [⟨1, "web", "nyc1"⟩, ⟨2, "db", "nyc1"⟩] ["db"]) "db"
    [⟨1, "web", "nyc1"⟩, ⟨2, "db", "nyc1"⟩] rfl (by decide) rfl).2 ⟨2, "db", "nyc1"⟩ (by decide)

/-- C12, as stated, fails: `web` is not a number and names two listed droplets, yet
`RunDropletDelete` returns nil and has deleted one of them, the droplet 1. -/
theorem RunDropletDelete_ambiguous_deletes :
    Atoi "web" = none ∧
    ([⟨1, "web", "nyc1"⟩, ⟨2, "web", "nyc1"⟩, ⟨3, "db", "nyc1"⟩].filter
        (fun d : Droplet => d.Name == "web")).length = 2 ∧
    RunDropletDelete sampleQuote sampleErrText
        (listingCmd [⟨1, "web", "nyc1"⟩, ⟨2, "web", "nyc1"⟩, ⟨3, "db", "nyc1"⟩] ["web"])
      = (none, [.List, .Delete 1, .Printf "deleted droplet 1\n"]) := by
  decide

/-- C12, amended. A name that matches more than one listed droplet is not an error:
`RunDropletDelete` makes one delete call, for the first listed droplet of that name,
and returns nil when that delete succeeds (the delete's failure otherwise).  A name
that matches no listed droplet is refused with an error before any delete call. -/
theorem RunDropletDelete_first_match (quote : String → String) (errText : Error → String)
    (c : CmdConfig) (X : String) (list : List Droplet) (hargs : c.Args = [X])
    (hX : Atoi X = none) (hlist : c.Droplets.List = (list, none)) :
    (2 ≤ (list.filter (fun d => d.Name == X)).length →
      ∃ d, (list.filter (fun d => d.Name == X)).head? = some d ∧
        deletedIn (RunDropletDelete quote errText c).2 = [d.ID] ∧
        (c.Droplets.Delete d.ID = none → (RunDropletDelete quote errText c).1 = none) ∧
        (∀ err, c.Droplets.Delete d.ID = some err →
          (RunDropletDelete quote errText c).1
            = some (.text ("unable to delete droplet " ++ toString d.ID ++ ": "
                ++ errText err)))) ∧
    ((list.filter (fun d => d.Name == X)).length = 0 →
      (∃ msg, (RunDropletDelete quote errText c).1 = some (.text msg)) ∧
      deletedIn (RunDropletDelete quote errText c).2 = []) := by
  rw [RunDropletDelete_name quote errText c X list hargs hX hlist]
  constructor
  · intro hmany
    have hne : list.filter (fun d => d.Name == X) ≠ [] := by
      intro h; rw [h] at hmany; simp at hmany
    obtain ⟨d, hfind, hhead⟩ := find?_isSome_of_filter_ne_nil _ list hne
    refine ⟨d, hhead, ?_⟩
    rw [hfind]
    simp only
    cases hdel : c.Droplets.Delete d.ID with
    | none => simp [deletedIn]
    | some err => simp [deletedIn]
  · intro hzero
    have hnil : list.filter (fun d => d.Name == X) = [] := List.length_eq_zero.1 hzero
    have hfind : list.find? (fun d => d.Name == X) = none := by
      rw [List.find?_eq_none]
      intro d hd hp
      have : d ∈ list.filter (fun d => d.Name == X) := List.mem_filter.2 ⟨hd, hp⟩
      rw [hnil] at this
      simp at this
    simp [hfind, deletedIn]

theorem RunDropletDelete_first_match_witness :
    ∃ d, ([⟨1, "web", "nyc1"⟩, ⟨2, "web", "nyc1"⟩].filter
          (fun d : Droplet => d.Name == "web")).head? = some d ∧
      deletedIn (RunDropletDelete sampleQuote sampleErrText
        (listingCmd [⟨1, "web", "nyc1"⟩, ⟨2, "web", "nyc1"⟩] ["web"])).2 = [d.ID] ∧
      ((listingCmd [⟨1, "web", "nyc1"⟩, ⟨2, "web", "nyc1"⟩] ["web"]).Droplets.Delete d.ID = none →
        (RunDropletDelete sampleQuote sampleErrText
          (listingCmd [⟨1, "web", "nyc1"⟩, ⟨2, "web", "nyc1"⟩] ["web"])).1 = none) ∧
      (∀ err,
        (listingCmd [⟨1, "web", "nyc1"⟩, ⟨2, "web", "nyc1"⟩] ["web"]).Droplets.Delete d.ID
            = some err →
          (RunDropletDelete sampleQuote sampleErrText
            (listingCmd [⟨1, "web", "nyc1"⟩, ⟨2, "web", "nyc1"⟩] ["web"])).1
            = some (.text ("unable to delete droplet " ++ toString d.ID ++ ": "
                ++ sampleErrText err))) :=
  (RunDropletDelete_first_match sampleQuote sampleErrText
    (listingCmd [⟨1, "web", "nyc1"⟩, ⟨2, "web", "nyc1"⟩] ["web"]) "web"
    [⟨1, "web", "nyc1"⟩, ⟨2, "web", "nyc1"⟩] rfl (by decide) rfl).1 (by decide)

/-! ## Droplet read handlers: remote errors -/

/-- The droplet read handlers other than `RunDropletActions` hand a failure of the
service call back as it is, after that one call and without displaying anything. -/
theorem RunDroplet_reads_propagate (c : CmdConfig) (id : Int) (e : Error)
    (hid : getDropletIDArg c.NS c.Args = (id, none)) :
    ((c.Droplets.Backups id).2 = some e → RunDropletBackups c = (some e, [.Backups id])) ∧
    ((c.Droplets.Kernels id).2 = some e → RunDropletKernels c = (some e, [.Kernels id])) ∧
    ((c.Droplets.Neighbors id).2 = some e →
      RunDropletNeighbors c = (some e, [.Neighbors id])) ∧
    ((c.Droplets.Snapshots id).2 = some e →
      RunDropletSnapshots c = (some e, [.Snapshots id])) ∧
    (c.Droplets.Get id = .error e → RunDropletGet c = (some e, [.Get id])) := by
  refine ⟨?_, ?_, ?_, ?_, ?_⟩
  · intro h
    rcases hb : c.Droplets.Backups id with ⟨l, err⟩
    rw [hb] at h; cases h
    simp only [RunDropletBackups, hid, hb]
  · intro h
    rcases hb : c.Droplets.Kernels id with ⟨l, err⟩
    rw [hb] at h; cases h
    simp only [RunDropletKernels, hid, hb]
  · intro h
    rcases hb : c.Droplets.Neighbors id with ⟨l, err⟩
    rw [hb] at h; cases h
    simp only [RunDropletNeighbors, hid, hb]
  · intro h
    rcases hb : c.Droplets.Snapshots id with ⟨l, err⟩
    rw [hb] at h; cases h
    simp only [RunDropletSnapshots, hid, hb]
  · intro h
    simp only [RunDropletGet, hid, h]

/-- C13, the code at the failing input: `droplet actions 42` when `ds.Actions(42)` fails
with a remote error.  `RunDropletActions` does not return that error: it displays the
(empty) action list and returns what `c.Display` returns, here nil. -/
theorem RunDropletActions_drops_error :
    getDropletIDArg failingActionsCmd.NS failingActionsCmd.Args = (42, none) ∧
    (failingActionsCmd.Droplets.Actions 42).2 = some (.remote 500) ∧
    RunDropletActions failingActionsCmd
      = (none, [.Actions 42, .Display (.action [])]) := by
  decide

/-! ## Drive actions: argument validation -/

/-- What `RunDriveAttach` does for any argument list, the argument count playing no
part: with two arguments or more it runs exactly as on the first two (it parses the
second as the droplet id and, when that succeeds, calls the attach service with the
first); with fewer than two it stops in a panic on the argument it cannot read, before
any parse or call. -/
theorem RunDriveAttach_validation_dropped (c : CmdConfig) :
    (c.Args.length < 2 → RunDriveAttach c = none) ∧
    (∀ a₀ a₁ rest, c.Args = a₀ :: a₁ :: rest →
      RunDriveAttach c = RunDriveAttach { c with Args := [a₀, a₁] } ∧
      (∀ dID, Atoi a₁ = some dID →
        ∃ r tr, RunDriveAttach c = some (r, .Attach a₀ dID :: tr) ∧
          r = c.DriveActions.Attach a₀ dID)) := by
  constructor
  · intro hlt
    rcases hargs : c.Args with _ | ⟨a₀, _ | ⟨a₁, rest⟩⟩
    · simp [RunDriveAttach, hargs]
    · simp [RunDriveAttach, hargs]
    · rw [hargs] at hlt; simp only [List.length_cons] at hlt; omega
  · intro a₀ a₁ rest hargs
    refine ⟨by simp [RunDriveAttach, hargs], ?_⟩
    intro dID hd
    cases hatt : c.DriveActions.Attach a₀ dID with
    | none =>
      exact ⟨none, [.Printf ("attached " ++ a₀ ++ " to " ++ toString dID ++ "\n")],
        by simp [RunDriveAttach, hargs, hd, hatt], rfl⟩
    | some err => exact ⟨some err, [], by simp [RunDriveAttach, hargs, hd, hatt], rfl⟩

/-- C14, the code at the failing inputs.  `drive-action attach` without arguments, with
one, and with three: the count is not 2 each time, `RunDriveAttach` never returns the
missing-arguments error it has built, and it does not stop on it either: without
arguments and with one argument it panics on the argument it cannot read, and with three
it attaches with the first two and returns nil.  `RunDriveDetach`, given no argument,
returns its missing-arguments error before any call. -/
theorem RunDriveAttach_drops_missing_args :
    RunDriveAttach (sampleCmd ("", none) [] []) = none ∧
    RunDriveAttach (sampleCmd ("", none) [] ["drive-1"]) = none ∧
    RunDriveAttach (sampleCmd ("", none) [] ["drive-1", "42", "extra"])
      = some (none, [.Attach "drive-1" 42, .Printf "attached drive-1 to 42\n"]) ∧
    RunDriveDetach (sampleCmd ("", none) [] [])
      = some (some (NewMissingArgsErr (sampleCmd ("", none) [] []).NS), []) := by
  decide

/-! ## Binding key and lookup namespace -/

theorem BindPFlag_lookup (v : Viper) (key : String) (f : Flag) :
    (v.BindPFlag key (some f)).pflags.lookup key = some f.name := by
  simp [Viper.BindPFlag, List.lookup]

theorem Lookup_declared (fs : FlagSet) (n desc : String) (dflt : Value)
    (hfresh : fs.Lookup n = none) :
    FlagSet.Lookup (fs ++ [⟨n, desc, dflt, dflt, false, []⟩]) n
      = some ⟨n, desc, dflt, dflt, false, []⟩ :=
  Lookup_append_fresh fs ⟨n, desc, dflt, dflt, false, []⟩ hfresh

/-- Without options each `Add*Flag` declares the flag and binds it under `flagName`. -/
theorem add_flag_plain (NSRoot : String) (cmd : Command) (n : String) (v : Viper)
    (desc ss : String) (si : Int) (sb : Bool) (sl : List String)
    (hfresh : cmd.Flags.Lookup n = none) :
    AddStringFlag NSRoot cmd v n ss desc [] = some
        (cmd.withFlags (cmd.Flags ++ [⟨n, desc, .str ss, .str ss, false, []⟩]),
         v.BindPFlag (flagName NSRoot cmd n) (some ⟨n, desc, .str ss, .str ss, false, []⟩)) ∧
    AddIntFlag NSRoot cmd v n si desc [] = some
        (cmd.withFlags (cmd.Flags ++ [⟨n, desc, .int si, .int si, false, []⟩]),
         v.BindPFlag (flagName NSRoot cmd n) (some ⟨n, desc, .int si, .int si, false, []⟩)) ∧
    AddBoolFlag NSRoot cmd v n sb desc [] = some
        (cmd.withFlags (cmd.Flags ++ [⟨n, desc, .bool sb, .bool sb, false, []⟩]),
         v.BindPFlag (flagName NSRoot cmd n) (some ⟨n, desc, .bool sb, .bool sb, false, []⟩)) ∧
    AddStringSliceFlag NSRoot cmd v n sl desc [] = some
        (cmd.withFlags (cmd.Flags ++ [⟨n, desc, .strs sl, .strs sl, false, []⟩]),
         v.BindPFlag (flagName NSRoot cmd n)
           (some ⟨n, desc, .strs sl, .strs sl, false, []⟩)) := by
  refine ⟨?_, ?_, ?_, ?_⟩
  · simp only [AddStringFlag, FlagSet.declare, hfresh, applyOpts, List.foldlM,
      Option.bind_eq_bind, Option.some_bind, Option.pure_def, withFlags_Flags,
      Lookup_declared _ _ _ _ hfresh]
  · simp only [AddIntFlag, FlagSet.declare, hfresh, applyOpts, List.foldlM,
      Option.bind_eq_bind, Option.some_bind, Option.pure_def, withFlags_Flags,
      Lookup_declared _ _ _ _ hfresh]
  · simp only [AddBoolFlag, FlagSet.declare, hfresh, applyOpts, List.foldlM,
      Option.bind_eq_bind, Option.some_bind, Option.pure_def, withFlags_Flags,
      Lookup_declared _ _ _ _ hfresh]
  · simp only [AddStringSliceFlag, FlagSet.declare, hfresh, applyOpts, List.foldlM,
      Option.bind_eq_bind, Option.some_bind, Option.pure_def, withFlags_Flags,
      Lookup_declared _ _ _ _ hfresh]

/-- C15. The key a flag is bound under and the namespace a handler looks it up in agree:
`flagName(cmd, n)` is `cmdNS(cmd) + "." + n`; the context `CmdBuilder` hands to the
runner carries `cmdNS(cmd)` as its `NS`, so the key formed from that `NS` and the flag
name is `flagName(cmd, n)`; and each `Add*Flag` binds the flag under exactly that key. -/
theorem flagName_eq_cmdNS (NSRoot : String) (cmd : Command) (n : String) (dc : Config)
    (ds : DropletsService) (das : DriveActionService) (display : Displayable → Option Error)
    (args : List String) (v : Viper) (desc ss : String) (si : Int) (sb : Bool)
    (sl : List String) (hfresh : cmd.Flags.Lookup n = none) :
    flagName NSRoot cmd n = cmdNS NSRoot cmd ++ "." ++ n ∧
    CmdBuilder.Run NSRoot (fun c => c.NS ++ "." ++ n) dc ds das display cmd args
      = flagName NSRoot cmd n ∧
    (∀ r ∈ [AddStringFlag NSRoot cmd v n ss desc [], AddIntFlag NSRoot cmd v n si desc [],
            AddBoolFlag NSRoot cmd v n sb desc [], AddStringSliceFlag NSRoot cmd v n sl desc []],
      ∃ cmd' v', r = some (cmd', v') ∧
        v'.pflags.lookup (cmdNS NSRoot cmd ++ "." ++ n) = some n) := by
  refine ⟨rfl, rfl, ?_⟩
  have hkey : cmdNS NSRoot cmd ++ "." ++ n = flagName NSRoot cmd n := rfl
  obtain ⟨h₁, h₂, h₃, h₄⟩ := add_flag_plain NSRoot cmd n v desc ss si sb sl hfresh
  intro r hr
  simp only [List.mem_cons, List.mem_singleton, List.not_mem_nil, or_false] at hr
  rcases hr with rfl | rfl | rfl | rfl
  · exact ⟨_, _, h₁, by rw [hkey]; exact BindPFlag_lookup _ _ _⟩
  · exact ⟨_, _, h₂, by rw [hkey]; exact BindPFlag_lookup _ _ _⟩
  · exact ⟨_, _, h₃, by rw [hkey]; exact BindPFlag_lookup _ _ _⟩
  · exact ⟨_, _, h₄, by rw [hkey]; exact BindPFlag_lookup _ _ _⟩

theorem flagName_eq_cmdNS_witness :
    flagName "doctl" (.child "list [GLOB]" [] (.root "droplet" [])) "region"
      = cmdNS "doctl" (.child "list [GLOB]" [] (.root "droplet" [])) ++ "." ++ "region" ∧
    cmdNS "doctl" (.child "list [GLOB]" [] (.root "droplet" [])) = "droplet.list" :=
  ⟨(flagName_eq_cmdNS "doctl" (.child "list [GLOB]" [] (.root "droplet" [])) "region"
      (sampleConfig ("", none)) (sampleService []) (sampleCmd ("", none) [] []).DriveActions
      (fun _ => none) [] {} "Droplet region" "" 0 false [] (by decide)).1, by decide⟩

/-! ## Classifying SSH keys -/

theorem foldl_append_flatMap {α β : Type} (f : α → List β) :
    ∀ (l : List α) (acc : List β), l.foldl (fun acc a => acc ++ f a) acc = acc ++ l.flatMap f
  | [], acc => by simp
  | a :: l, acc => by
      simp only [List.foldl_cons, List.flatMap_cons]
      rw [foldl_append_flatMap f l (acc ++ f a), List.append_assoc]

theorem sshKeyOfToken_eq (k : String) : sshKeyOfToken k = (classifyToken k).toList := by
  unfold sshKeyOfToken classifyToken
  cases Atoi k with
  | some i => by_cases h : i > 0 <;> simp [h]
  | none => by_cases h : k = "" <;> simp [h]

theorem flatMap_toList {α β : Type} (f : α → Option β) :
    ∀ (l : List α), l.flatMap (fun a => (f a).toList) = l.filterMap f
  | [] => rfl
  | a :: l => by
      simp only [List.flatMap_cons, List.filterMap_cons, flatMap_toList f l]
      cases f a <;> rfl

theorem extractSSHKeys_eq (keys : List String) :
    extractSSHKeys keys = keys.flatMap (fun raw => (listTokens raw).flatMap sshKeyOfToken) := by
  unfold extractSSHKeys
  have hinner : (fun (sshKeys : List DropletCreateSSHKey) (rawKey : String) =>
      (listTokens rawKey).foldl (fun sshKeys k => sshKeys ++ sshKeyOfToken k) sshKeys)
      = fun sshKeys rawKey => sshKeys ++ (listTokens rawKey).flatMap sshKeyOfToken := by
    funext sshKeys rawKey
    exact foldl_append_flatMap sshKeyOfToken _ _
  rw [hinner, foldl_append_flatMap]
  simp


theorem flatMap_flatMap {α β γ : Type} (f : α → List β) (g : β → List γ) :
    ∀ (l : List α), l.flatMap (fun a => (f a).flatMap g) = (l.flatMap f).flatMap g
  | [] => rfl
  | a :: l => by
      simp only [List.flatMap_cons, List.flatMap_append, flatMap_flatMap f g l]

/-- C16. `extractSSHKeys` classifies every token and keeps the order: its result is the
list of the tokens of the input strings (one leading `[` and one trailing `]` stripped,
then split on `,`), in input order, each token classified on its own: an integer `i`
gives the ID `i` when `i > 0` and nothing otherwise, a non-empty token that is no integer
gives a fingerprint, the empty token gives nothing.  For an empty input the result is the
empty list, not nil. -/
theorem extractSSHKeys_classifies (keys : List String) :
    extractSSHKeys keys = sshKeysSpec keys ∧
    (∀ token i, Atoi token = some i →
      classifyToken token = if i > 0 then some { ID := i } else none) ∧
    (∀ token, Atoi token = none → token ≠ "" →
      classifyToken token = some { Fingerprint := token }) ∧
    classifyToken "" = none ∧
    listTokens "[3,,ab:cd,-1]" = ["3", "", "ab:cd", "-1"] ∧
    listTokens "[[x]]" = ["[x]"] ∧
    extractSSHKeys.slice keys ≠ none ∧
    extractSSHKeys.slice [] = some [] := by
  refine ⟨?_, ?_, ?_, by decide, by decide, by decide, by simp [extractSSHKeys.slice], rfl⟩
  · rw [extractSSHKeys_eq, sshKeysSpec, flatMap_flatMap]
    have : sshKeyOfToken = fun k => (classifyToken k).toList := funext sshKeyOfToken_eq
    rw [this, flatMap_toList]
  · intro token i h
    simp [classifyToken, h]
  · intro token h hne
    simp [classifyToken, h, hne]


theorem extractSSHKeys_classifies_witness :
    extractSSHKeys ["[3,,ab:cd,-1]", "7,0"]
      = [{ ID := 3 }, { Fingerprint := "ab:cd" }, { ID := 7 }] :=
  (extractSSHKeys_classifies ["[3,,ab:cd,-1]", "7,0"]).1.trans (by decide)

/-! ## Listing droplets -/

theorem compileGlobs_ok (quote : String → String) (compile : String → Option Glob) :
    ∀ (args : List String) (gs acc : List Glob), args.map compile = gs.map some →
      compileGlobs quote compile args acc = .ok (acc ++ gs)
  | [], gs, acc, h => by
      cases gs with
      | nil => simp [compileGlobs]
      | cons g gs => simp at h
  | a :: args, gs, acc, h => by
      cases gs with
      | nil => simp at h
      | cons g gs =>
        simp only [List.map_cons, List.cons.injEq] at h
        simp only [compileGlobs, h.1]
        rw [compileGlobs_ok quote compile args gs (acc ++ [g]) h.2]
        simp

theorem compileGlobs_fail (quote : String → String) (compile : String → Option Glob) :
    ∀ (args : List String) (acc : List Glob), (∃ a ∈ args, compile a = none) →
      ∃ err, compileGlobs quote compile args acc = .error err
  | [], _, h => by
      obtain ⟨a, ha, _⟩ := h
      simp at ha
  | a :: args, acc, h => by
      cases hc : compile a with
      | none =>
        exact ⟨.text ("unknown glob " ++ quote a), by simp only [compileGlobs, hc]⟩
      | some g =>
        simp only [compileGlobs, hc]
        apply compileGlobs_fail quote compile args
        obtain ⟨b, hb, hbn⟩ := h
        rcases List.mem_cons.1 hb with rfl | hb'
        · rw [hc] at hbn; cases hbn
        · exact ⟨b, hb', hbn⟩

theorem foldl_skip (name : String) :
    ∀ (globs : List Glob) (init : Bool),
      globs.foldl (fun skip m => if m name then false else skip) init
        = (init && !globs.any (fun g => g name))
  | [], init => by simp
  | g :: globs, init => by
      simp only [List.foldl_cons, List.any_cons]
      rw [foldl_skip name globs]
      cases g name <;> cases init <;> simp

theorem keepDroplet_eq (args : List String) (globs : List Glob) (region : String)
    (d : Droplet) (hlen : globs.length = args.length) :
    keepDroplet globs region d = shownSpec args globs region d := by
  unfold keepDroplet shownSpec
  rw [foldl_skip]
  cases args with
  | nil =>
    have : globs = [] := List.length_eq_zero.1 hlen
    subst this
    by_cases hr : region = "" <;> by_cases hs : region = d.RegionSlug <;> simp [hr, hs]
  | cons a args =>
    cases globs with
    | nil => simp at hlen
    | cons g globs =>
      by_cases hr : region = "" <;> by_cases hs : region = d.RegionSlug <;>
        cases hg : (g :: globs).any (fun g => g d.Name) <;> simp [hr, hs, hg]

theorem foldl_keep {α : Type} (p : α → Bool) :
    ∀ (l acc : List α),
      l.foldl (fun acc a => if p a then acc ++ [a] else acc) acc = acc ++ l.filter p
  | [], acc => by simp
  | a :: l, acc => by
      simp only [List.foldl_cons, List.filter_cons]
      rw [foldl_keep p l]
      cases p a <;> simp


/-- C17. `RunDropletList`, with the region flag resolved: when every glob argument
compiles and the service lists its droplets, the list displayed is the sub-list, in the
order of the service, of exactly the droplets for which (no glob argument was given or
some compiled glob matches the name) and (the region flag is empty or equals the
droplet's region slug), and the handler returns what the display returns; when some glob
argument does not compile, whatever the region flag resolved to, an error is returned
and `List` is not called. -/
theorem RunDropletList_filters (A : ArgNames) (quote : String → String)
    (compile : String → Option Glob) (c : CmdConfig) :
    (∀ (region : String) (globs : List Glob) (list : List Droplet),
      c.Doit.GetString c.NS A.ArgRegionSlug = (region, none) →
      c.Args.map compile = globs.map some →
      c.Droplets.List = (list, none) →
      RunDropletList A quote compile c
        = (c.Display (.droplet (list.filter (shownSpec c.Args globs region))),
           [.List, .Display (.droplet (list.filter (shownSpec c.Args globs region)))])) ∧
    ((∃ globStr ∈ c.Args, compile globStr = none) →
      ∃ err, RunDropletList A quote compile c = (some err, [])) := by
  constructor
  · intro region globs list hregion hglobs hlist
    have hlen : globs.length = c.Args.length := by
      have := congrArg List.length hglobs
      simpa using this.symm
    have hkeep : (fun d => keepDroplet globs region d) = shownSpec c.Args globs region :=
      funext (fun d => keepDroplet_eq c.Args globs region d hlen)
    have hcomp := compileGlobs_ok quote compile c.Args globs [] hglobs
    simp only [List.nil_append] at hcomp
    simp only [RunDropletList, hregion, hcomp, hlist]
    rw [foldl_keep (fun d => keepDroplet globs region d), hkeep]
    simp
  · intro hbad
    obtain ⟨err, herr⟩ := compileGlobs_fail quote compile c.Args [] hbad
    rcases hg : c.Doit.GetString c.NS A.ArgRegionSlug with ⟨region, _ | e⟩
    · exact ⟨err, by simp only [RunDropletList, hg, herr]⟩
    · exact ⟨e, by simp only [RunDropletList, hg]⟩

theorem RunDropletList_filters_witness :
    RunDropletList sampleArgNames sampleQuote sampleCompile
        (listingCmd [⟨1, "web", "nyc1"⟩, ⟨2, "db", "nyc1"⟩, ⟨3, "web", "ams2"⟩] ["web", "*"])
      = (none, [.List, .Display (.droplet [⟨1, "web", "nyc1"⟩, ⟨2, "db", "nyc1"⟩])]) ∧
    (∃ err, RunDropletList sampleArgNames sampleQuote sampleCompile
        (listingCmd [⟨1, "web", "nyc1"⟩] ["web", "[b"]) = (some err, [])) :=
  ⟨((RunDropletList_filters sampleArgNames sampleQuote sampleCompile
      (listingCmd [⟨1, "web", "nyc1"⟩, ⟨2, "db", "nyc1"⟩, ⟨3, "web", "ams2"⟩]
        ["web", "*"])).1 "nyc1" [fun name => name == "web", fun _ => true]
      [⟨1, "web", "nyc1"⟩, ⟨2, "db", "nyc1"⟩, ⟨3, "web", "ams2"⟩] rfl rfl rfl).trans
      (by decide),
   (RunDropletList_filters sampleArgNames sampleQuote sampleCompile
      (listingCmd [⟨1, "web", "nyc1"⟩] ["web", "[b"])).2 ⟨"[b", by decide, rfl⟩⟩

end Doctl
